import Mathlib

/-!
eden.c: the dynamic-loader interposition layer

A shallow embedding of `espresso/src/com.oracle.truffle.espresso.eden/src/eden.c`.

* The file-scope and function-scope `static` variables of the C file are the fields of
  `Statics`.
* Everything the C file calls but does not define (glibc, the loader, the file system) is a
  `Platform W`: a transition system over an arbitrary world type `W`.
* A C function becomes a function `Machine W → Res W α`: it returns an outcome (a return
  value, `exit`, or a crash on a call through a null function pointer), the machine it
  leaves behind, and the list of events it produced, in order.  Events are the calls made
  to the platform (with their arguments and results) and the lines written to `stderr`.
-/

namespace Eden

/-! ## C values -/

/-- Pointers are machine addresses; address 0 is `NULL`. -/
abbrev Ptr := Nat

/-- The null pointer. -/
@[reducible] def NULL : Ptr := 0

/-- The sentinel `#define UNINITIALIZED ((void*) ~0)`: all 64 address bits set. -/
@[reducible] def UNINITIALIZED : Ptr := 2 ^ 64 - 1

/-- Two's complement bit pattern of a C `int` (32 bits). -/
def to_bits (x : Int) : Nat := (x % 2 ^ 32).toNat

/-- The C `int` denoted by a 32-bit pattern. -/
def of_bits (n : Nat) : Int :=
  if n % 2 ^ 32 < 2 ^ 31 then ((n % 2 ^ 32 : Nat) : Int) else ((n % 2 ^ 32 : Nat) : Int) - 2 ^ 32

/-- The C operator `a & b` on `int`. -/
def int_and (a b : Int) : Int := of_bits (to_bits a &&& to_bits b)

/-- The C operator `~a` on `int`. -/
def int_not (a : Int) : Int := of_bits (2 ^ 32 - 1 - to_bits a)

/-! Constants of the glibc headers `<dlfcn.h>`, `<unistd.h>` and `<locale.h>` (Linux). -/

/-- The `<dlfcn.h>` value of `RTLD_LAZY`. -/
@[reducible] def RTLD_LAZY : Int := 1
/-- The `<dlfcn.h>` value of `RTLD_NOW`. -/
@[reducible] def RTLD_NOW : Int := 2
/-- The `<dlfcn.h>` value of `RTLD_GLOBAL`, bit 8. -/
@[reducible] def RTLD_GLOBAL : Int := 256
/-- The `<dlfcn.h>` pseudo-handle `RTLD_DEFAULT`, `((void *) 0)`. -/
@[reducible] def RTLD_DEFAULT : Ptr := 0
/-- The `<dlfcn.h>` request code `RTLD_DI_LMID`. -/
@[reducible] def RTLD_DI_LMID : Int := 1
/-- The `<unistd.h>` value of `R_OK`. -/
@[reducible] def R_OK : Int := 4
/-- The `<locale.h>` value of `LC_ALL`. -/
@[reducible] def LC_ALL : Int := 6

/-- The C library's `strcmp`, on strings seen as character lists.  ISO C fixes the sign of
the result only: negative, zero or positive as the first string is less than, equal to or
greater than the second; the model returns -1, 0 or 1. -/
def strcmp_chars : List Char → List Char → Int
  | [], [] => 0
  | [], _ :: _ => -1
  | _ :: _, [] => 1
  | a :: as, b :: bs => if a = b then strcmp_chars as bs else if a < b then -1 else 1

/-- The C library's `strcmp`. -/
def strcmp (a b : String) : Int := strcmp_chars a.data b.data

/-! ## The version probe: `sscanf(version, "%d.%d", &major, &minor)` -/

/-- The C library's `isspace` in the "C" locale. -/
def isspace (c : Char) : Bool :=
  c.toNat = 32 || (9 ≤ c.toNat && c.toNat ≤ 13)

/-- Drop leading white space, as every `%d` conversion does. -/
def skip_space : List Char → List Char
  | [] => []
  | c :: cs => if isspace c then skip_space cs else c :: cs

/-- Read a run of decimal digits, accumulating its value. -/
def scan_digits : List Char → Nat → Nat × List Char
  | [], acc => (acc, [])
  | c :: cs, acc =>
    if c.isDigit then scan_digits cs (10 * acc + (c.toNat - 48)) else (acc, c :: cs)

/-- One `%d` conversion: optional white space, optional sign, at least one digit.  The value
is clamped to the range of `long` (as `strtol` does) and stored into an `int`. -/
def scan_int (s : List Char) : Option (Int × List Char) :=
  let s1 := skip_space s
  let neg : Bool := match s1 with
    | c :: _ => c = '-'
    | [] => false
  let s2 := match s1 with
    | c :: cs => if c = '-' ∨ c = '+' then cs else c :: cs
    | [] => []
  match s2 with
  | [] => none
  | c :: _ =>
    if c.isDigit then
      let r := scan_digits s2 0
      let v : Int := if neg then - (r.1 : Int) else (r.1 : Int)
      let clamped : Int := max (-(2 ^ 63)) (min v (2 ^ 63 - 1))
      some (of_bits (clamped % 2 ^ 32).toNat, r.2)
    else none

/-- The call `sscanf(s, "%d.%d", &major, &minor)`: returns the values of `major` and `minor`
after the call, given their values before it. -/
def sscanf_d_dot_d (s : String) (major minor : Int) : Int × Int :=
  match scan_int s.data with
  | none => (major, minor)
  | some (a, rest) =>
    match rest with
    | [] => (a, minor)
    | c :: rest1 =>
      if c = '.' then
        match scan_int rest1 with
        | none => (a, minor)
        | some (b, _) => (a, b)
      else (a, minor)

/-! ## Events, machine state, outcomes -/

/-- One argument of a `fprintf` call. -/
inductive Arg where
  | int (v : Int)
  | ptr (p : Ptr)
  | str (s : Option String)
  deriving DecidableEq

/-- What the module does to the outside: a call to the platform, with its arguments and its
result, or a line written to `stderr`. -/
inductive Event where
  | stderr (fmt : String) (args : List Arg)
  | getenv (name : String) (result : Option String)
  | gnu_get_libc_version (result : String)
  | libc_dlopen_mode (filename : String) (flags : Int) (result : Ptr)
  | libc_dlsym (handle : Ptr) (symbol : String) (result : Ptr)
  | access (path : Option String) (mode : Int) (result : Int)
  | dlerror (result : Option String)
  | dlinfo (handle : Ptr) (request : Int) (status : Int) (lmid : Int)
  | setlocale (category : Int) (result : Option String)
  | ctype_b_loc (result : Ptr)
  | call_dlopen (fp : Ptr) (filename : Option String) (flags : Int) (result : Ptr)
  | call_dlmopen (fp : Ptr) (lmid : Int) (filename : Option String) (flags : Int) (result : Ptr)
  | call_dlclose (fp : Ptr) (handle : Ptr) (result : Int)
  | call_dlsym (fp : Ptr) (handle : Ptr) (symbol : Option String) (result : Ptr)
  | call_ctype_init (fp : Ptr)
  deriving DecidableEq

/-- The `static` variables of eden.c. -/
structure Statics where
  /-- The file-scope `static Lmid_t namespace_id = 0`. -/
  namespace_id : Int
  /-- The file-scope `static int eden_debug = 0`. -/
  eden_debug : Int
  /-- The `static void *libc` of `get_libc`. -/
  libc : Ptr
  /-- The `static void *libdl` of `get_libdl`. -/
  libdl : Ptr
  /-- The `static` function pointer of `real_dlopen`. -/
  the_real_dlopen : Ptr
  /-- The `static void *libeden` of `get_libeden`. -/
  libeden : Ptr
  /-- The `static` function pointer of `real_dlmopen`. -/
  the_real_dlmopen : Ptr
  /-- The `static` function pointer of `real_dlclose`. -/
  the_real_dlclose : Ptr
  /-- The `static` function pointer of `real_dlsym`. -/
  the_real_dlsym : Ptr
  /-- The `static` function pointer of `eden_ctypeInit`. -/
  the_real__ctype_init : Ptr
  deriving DecidableEq

/-- The initializers of the `static` variables. -/
def Statics.initial : Statics where
  namespace_id := 0
  eden_debug := 0
  libc := NULL
  libdl := NULL
  the_real_dlopen := NULL
  libeden := NULL
  the_real_dlmopen := NULL
  the_real_dlclose := NULL
  the_real_dlsym := NULL
  the_real__ctype_init := UNINITIALIZED

/-- Everything eden.c calls and does not define.  `W` is the state of the process outside
the module (loaded objects, pending `dlerror` message, file system, environment).  A call
through a function pointer obtained from `__libc_dlsym` is a `call_*` field, given the
pointer. -/
structure Platform (W : Type) where
  /-- The call `getenv(name)`; `none` is a null result. -/
  getenv : W → String → Option String
  /-- The call `gnu_get_libc_version()`. -/
  gnu_get_libc_version : W → String
  /-- The call `__libc_dlopen_mode(filename, flags)`. -/
  libc_dlopen_mode : W → String → Int → Ptr × W
  /-- The call `__libc_dlsym(handle, symbol)`. -/
  libc_dlsym : W → Ptr → String → Ptr × W
  /-- The call `access(path, mode)`. -/
  access : W → Option String → Int → Int × W
  /-- The call `dlerror()`; `none` is a null result. -/
  dlerror : W → Option String × W
  /-- The call `dlinfo(handle, request, &x)`, given the value of `x` before the call;
  returns the status and the value of `x` after the call. -/
  dlinfo : W → Ptr → Int → Int → (Int × Int) × W
  /-- The call `setlocale(category, NULL)`. -/
  setlocale : W → Int → Option String
  /-- The address `&__ctype_b_loc`. -/
  ctype_b_loc_addr : Ptr
  /-- The value `*__ctype_b_loc()`. -/
  ctype_b_loc : W → Ptr
  /-- A call `fp(filename, flags)` through a pointer to the loader's `dlopen`. -/
  call_dlopen : W → Ptr → Option String → Int → Ptr × W
  /-- A call `fp(lmid, filename, flags)` through a pointer to the loader's `dlmopen`. -/
  call_dlmopen : W → Ptr → Int → Option String → Int → Ptr × W
  /-- A call `fp(handle)` through a pointer to the loader's `dlclose`. -/
  call_dlclose : W → Ptr → Ptr → Int × W
  /-- A call `fp(handle, symbol)` through a pointer to the loader's `dlsym`. -/
  call_dlsym : W → Ptr → Ptr → Option String → Ptr × W
  /-- A call `fp()` through a pointer to `__ctype_init`. -/
  call_ctype_init : W → Ptr → W

/-- The process: the world outside the module and the module's `static` variables. -/
structure Machine (W : Type) where
  world : W
  mem : Statics

/-- How a C function ends: it returns, the process exits, or the process crashes. -/
inductive Outcome (α : Type) where
  | ret (a : α)
  | exited (status : Int)
  | crashed
  deriving DecidableEq

/-- The result of running a C function. -/
structure Res (W α : Type) where
  out : Outcome α
  st : Machine W
  trace : List Event

/-- A C function body. -/
def M (W α : Type) : Type := Machine W → Res W α

/-- The statement `return a`. -/
def M.pure {W α : Type} (a : α) : M W α := fun m => ⟨Outcome.ret a, m, []⟩

/-- Sequencing: `exit` and a crash end the run. -/
def M.bind {W α β : Type} (x : M W α) (f : α → M W β) : M W β := fun m =>
  match (x m).out with
  | Outcome.ret a => ⟨(f a (x m).st).out, (f a (x m).st).st, (x m).trace ++ (f a (x m).st).trace⟩
  | Outcome.exited c => ⟨Outcome.exited c, (x m).st, (x m).trace⟩
  | Outcome.crashed => ⟨Outcome.crashed, (x m).st, (x m).trace⟩

instance (W : Type) : Monad (M W) where
  pure := M.pure
  bind := M.bind

/-- Read the `static` variables. -/
def getMem {W : Type} : M W Statics := fun m => ⟨Outcome.ret m.mem, m, []⟩

/-- Assign to `static` variables. -/
def setMem {W : Type} (f : Statics → Statics) : M W Unit :=
  fun m => ⟨Outcome.ret (), ⟨m.world, f m.mem⟩, []⟩

/-- A crash of the process (a call through a null function pointer). -/
def crash {W α : Type} : M W α := fun m => ⟨Outcome.crashed, m, []⟩

/-- The guard `if (eden_debug)` of the `LOG` macro: the body, its arguments included, runs
only when the debug flag is set. -/
def whenDebug {W : Type} (body : M W Unit) : M W Unit :=
  fun m => if m.mem.eden_debug ≠ 0 then body m else ⟨Outcome.ret (), m, []⟩

/-- The line a `LOG` or `FATAL` writes: the macro prepends its tag to the format and
`namespace_id` to the arguments. -/
def fprintf_stderr {W : Type} (tag fmt : String) (args : List Arg) : M W Unit :=
  fun m => ⟨Outcome.ret (), m, [Event.stderr (tag ++ fmt) (Arg.int m.mem.namespace_id :: args)]⟩

/-- The macro `LOG(fmt, ...)`, for arguments without side effects. -/
def LOG {W : Type} (fmt : String) (args : List Arg) : M W Unit :=
  whenDebug (fprintf_stderr "[eden #%ld] " fmt args)

/-- The macro `FATAL(fmt, ...)`: write the line, then `exit(-1)`. -/
def FATAL {W α : Type} (fmt : String) (args : List Arg) : M W α :=
  fun m => ⟨Outcome.exited (-1), m,
    [Event.stderr ("[eden #%ld] FATAL ERROR " ++ fmt) (Arg.int m.mem.namespace_id :: args)]⟩

/-! ## Calls to the platform -/

section Calls
variable {W : Type} (P : Platform W)

/-- The call `getenv(name)`. -/
def prim_getenv (name : String) : M W (Option String) := fun m =>
  ⟨Outcome.ret (P.getenv m.world name), m, [Event.getenv name (P.getenv m.world name)]⟩

/-- The call `gnu_get_libc_version()`. -/
def prim_gnu_get_libc_version : M W String := fun m =>
  ⟨Outcome.ret (P.gnu_get_libc_version m.world), m,
    [Event.gnu_get_libc_version (P.gnu_get_libc_version m.world)]⟩

/-- The call `__libc_dlopen_mode(filename, flags)`. -/
def prim_libc_dlopen_mode (filename : String) (flags : Int) : M W Ptr := fun m =>
  ⟨Outcome.ret (P.libc_dlopen_mode m.world filename flags).1,
    ⟨(P.libc_dlopen_mode m.world filename flags).2, m.mem⟩,
    [Event.libc_dlopen_mode filename flags (P.libc_dlopen_mode m.world filename flags).1]⟩

/-- The call `__libc_dlsym(handle, symbol)`. -/
def prim_libc_dlsym (handle : Ptr) (symbol : String) : M W Ptr := fun m =>
  ⟨Outcome.ret (P.libc_dlsym m.world handle symbol).1,
    ⟨(P.libc_dlsym m.world handle symbol).2, m.mem⟩,
    [Event.libc_dlsym handle symbol (P.libc_dlsym m.world handle symbol).1]⟩

/-- The call `access(path, mode)`. -/
def prim_access (path : Option String) (mode : Int) : M W Int := fun m =>
  ⟨Outcome.ret (P.access m.world path mode).1, ⟨(P.access m.world path mode).2, m.mem⟩,
    [Event.access path mode (P.access m.world path mode).1]⟩

/-- The call `dlerror()`. -/
def prim_dlerror : M W (Option String) := fun m =>
  ⟨Outcome.ret (P.dlerror m.world).1, ⟨(P.dlerror m.world).2, m.mem⟩,
    [Event.dlerror (P.dlerror m.world).1]⟩

/-- The call `dlinfo(handle, request, &namespace_id)`: stores into `namespace_id` and
returns the status. -/
def prim_dlinfo_namespace_id (handle : Ptr) (request : Int) : M W Int := fun m =>
  ⟨Outcome.ret (P.dlinfo m.world handle request m.mem.namespace_id).1.1,
    ⟨(P.dlinfo m.world handle request m.mem.namespace_id).2,
      { m.mem with namespace_id := (P.dlinfo m.world handle request m.mem.namespace_id).1.2 }⟩,
    [Event.dlinfo handle request (P.dlinfo m.world handle request m.mem.namespace_id).1.1
      (P.dlinfo m.world handle request m.mem.namespace_id).1.2]⟩

/-- The call `setlocale(category, NULL)`. -/
def prim_setlocale (category : Int) : M W (Option String) := fun m =>
  ⟨Outcome.ret (P.setlocale m.world category), m,
    [Event.setlocale category (P.setlocale m.world category)]⟩

/-- The expression `*__ctype_b_loc()`. -/
def prim_ctype_b_loc : M W Ptr := fun m =>
  ⟨Outcome.ret (P.ctype_b_loc m.world), m, [Event.ctype_b_loc (P.ctype_b_loc m.world)]⟩

/-- The call `fp(filename, flags)`, `fp` a pointer to `dlopen`; a null `fp` crashes. -/
def call_dlopen (fp : Ptr) (filename : Option String) (flags : Int) : M W Ptr := fun m =>
  if fp = NULL then ⟨Outcome.crashed, m, []⟩
  else ⟨Outcome.ret (P.call_dlopen m.world fp filename flags).1,
    ⟨(P.call_dlopen m.world fp filename flags).2, m.mem⟩,
    [Event.call_dlopen fp filename flags (P.call_dlopen m.world fp filename flags).1]⟩

/-- The call `fp(lmid, filename, flags)`, `fp` a pointer to `dlmopen`; a null `fp`
crashes. -/
def call_dlmopen (fp : Ptr) (lmid : Int) (filename : Option String) (flags : Int) : M W Ptr :=
  fun m =>
  if fp = NULL then ⟨Outcome.crashed, m, []⟩
  else ⟨Outcome.ret (P.call_dlmopen m.world fp lmid filename flags).1,
    ⟨(P.call_dlmopen m.world fp lmid filename flags).2, m.mem⟩,
    [Event.call_dlmopen fp lmid filename flags (P.call_dlmopen m.world fp lmid filename flags).1]⟩

/-- The call `fp(handle)`, `fp` a pointer to `dlclose`; a null `fp` crashes. -/
def call_dlclose (fp : Ptr) (handle : Ptr) : M W Int := fun m =>
  if fp = NULL then ⟨Outcome.crashed, m, []⟩
  else ⟨Outcome.ret (P.call_dlclose m.world fp handle).1,
    ⟨(P.call_dlclose m.world fp handle).2, m.mem⟩,
    [Event.call_dlclose fp handle (P.call_dlclose m.world fp handle).1]⟩

/-- The call `fp(handle, symbol)`, `fp` a pointer to `dlsym`; a null `fp` crashes. -/
def call_dlsym (fp : Ptr) (handle : Ptr) (symbol : Option String) : M W Ptr := fun m =>
  if fp = NULL then ⟨Outcome.crashed, m, []⟩
  else ⟨Outcome.ret (P.call_dlsym m.world fp handle symbol).1,
    ⟨(P.call_dlsym m.world fp handle symbol).2, m.mem⟩,
    [Event.call_dlsym fp handle symbol (P.call_dlsym m.world fp handle symbol).1]⟩

/-- The call `fp()`, `fp` a pointer to `__ctype_init`; a null `fp` crashes. -/
def call_ctype_init (fp : Ptr) : M W Unit := fun m =>
  if fp = NULL then ⟨Outcome.crashed, m, []⟩
  else ⟨Outcome.ret (), ⟨P.call_ctype_init m.world fp, m.mem⟩, [Event.call_ctype_init fp]⟩

/-! ## The functions of eden.c -/

/-- The C function `get_libc`. -/
def get_libc : M W Ptr := do
  if (← getMem).libc = NULL then
    LOG "__libc_dlopen_mode(libc.so.6, RTLD_LAZY)\n" []
    let h ← prim_libc_dlopen_mode P "libc.so.6" RTLD_LAZY
    setMem fun s => { s with libc := h }
  let libc := (← getMem).libc
  LOG "get_libc(libc.so.6) => %p\n" [Arg.ptr libc]
  return libc

/-- The C function `get_libdl`. -/
def get_libdl : M W Ptr := do
  if (← getMem).libdl = NULL then
    LOG "__libc_dlopen_mode(libdl.so, RTLD_LAZY)\n" []
    let h ← prim_libc_dlopen_mode P "libdl.so" RTLD_LAZY
    setMem fun s => { s with libdl := h }
  let libdl := (← getMem).libdl
  LOG "get_libdl(libdl.so) => %p\n" [Arg.ptr libdl]
  return libdl

/-- The C function `real_dlopen`. -/
def real_dlopen (filename : Option String) (flags : Int) : M W Ptr := do
  LOG "real_dlopen(%s, %d)\n" [Arg.str filename, Arg.int flags]
  if (← getMem).the_real_dlopen = NULL then
    LOG "__libc_dlsym(get_libdl(), dlopen)\n" []
    let libdl ← get_libdl P
    let fp ← prim_libc_dlsym P libdl "dlopen"
    setMem fun s => { s with the_real_dlopen := fp }
    LOG "__libc_dlsym(get_libdl(), dlopen) => %p\n" [Arg.ptr fp]
  let result ← call_dlopen P (← getMem).the_real_dlopen filename flags
  LOG "real_dlopen(%s, %d) => %p\n" [Arg.str filename, Arg.int flags, Arg.ptr result]
  return result

/-- The C function `get_libeden`. -/
def get_libeden : M W Ptr := do
  if (← getMem).libeden = NULL then
    let version ← prim_gnu_get_libc_version P
    let mm := sscanf_d_dot_d version 0 0
    let major := mm.1
    let minor := mm.2
    LOG "glibc version parsed as %d.%d\n" [Arg.int major, Arg.int minor]
    if major ≠ 2 then
      FATAL "Incorrect glibc major version: %d.%d\n" [Arg.int major, Arg.int minor]
    if minor < 17 then
      LOG "real_dlopen(libeden.so, RTLD_LAZY)\n" []
      let h ← real_dlopen P (some "libeden.so") RTLD_LAZY
      setMem fun s => { s with libeden := h }
    else
      LOG "__libc_dlopen_mode(libeden.so, RTLD_NOW)\n" []
      let h ← prim_libc_dlopen_mode P "libeden.so" RTLD_NOW
      setMem fun s => { s with libeden := h }
  let libeden := (← getMem).libeden
  LOG "get_libeden(libeden.so) => %p\n" [Arg.ptr libeden]
  return libeden

/-- The C function `real_dlmopen`. -/
def real_dlmopen (lmid : Int) (filename : Option String) (flags : Int) : M W Ptr := do
  LOG "real_dlmopen(%ld, %s, %d)\n" [Arg.int lmid, Arg.str filename, Arg.int flags]
  if (← getMem).the_real_dlmopen = NULL then
    LOG "__libc_dlsym(get_libdl(), dlmopen)\n" []
    let libdl ← get_libdl P
    let fp ← prim_libc_dlsym P libdl "dlmopen"
    setMem fun s => { s with the_real_dlmopen := fp }
    LOG "__libc_dlsym(get_libdl(), dlmopen) => %p\n" [Arg.ptr fp]
  let result ← call_dlmopen P (← getMem).the_real_dlmopen lmid filename flags
  LOG "real_dlmopen(%ld, %s, %d) => %p\n"
    [Arg.int lmid, Arg.str filename, Arg.int flags, Arg.ptr result]
  return result

/-- The C function `real_dlclose`. -/
def real_dlclose (handle : Ptr) : M W Int := do
  LOG "real_dlclose(%p)\n" [Arg.ptr handle]
  if (← getMem).the_real_dlclose = NULL then
    LOG "__libc_dlsym(get_libdl(), dlclose)\n" []
    let libdl ← get_libdl P
    let fp ← prim_libc_dlsym P libdl "dlclose"
    setMem fun s => { s with the_real_dlclose := fp }
    LOG "__libc_dlsym(get_libdl(), dlclose) => %p\n" [Arg.ptr fp]
  let result ← call_dlclose P (← getMem).the_real_dlclose handle
  LOG "real_dlclose(%p) => %d\n" [Arg.ptr handle, Arg.int result]
  return result

/-- The C function `real_dlsym`. -/
def real_dlsym (handle : Ptr) (symbol : Option String) : M W Ptr := do
  LOG "real_dlsym(%p, %s)\n" [Arg.ptr handle, Arg.str symbol]
  if (← getMem).the_real_dlsym = NULL then
    LOG "__libc_dlsym(get_libdl(), dlsym)\n" []
    let libdl ← get_libdl P
    let fp ← prim_libc_dlsym P libdl "dlsym"
    setMem fun s => { s with the_real_dlsym := fp }
    LOG "__libc_dlsym(get_libdl(), dlsym) => %p\n" [Arg.ptr fp]
  let result ← call_dlsym P (← getMem).the_real_dlsym handle symbol
  LOG "real_dlsym(%p, %s) => %p\n" [Arg.ptr handle, Arg.str symbol, Arg.ptr result]
  return result

/-- The C function `is_absolute_path`: `path != NULL && path[0] == '/'`. -/
def is_absolute_path (path : Option String) : Bool :=
  match path with
  | none => false
  | some s =>
    match s.data with
    | [] => false
    | c :: _ => c = '/'

/-- The exported C function `dlmopen`. -/
def dlmopen (lmid : Int) (filename : Option String) (flags : Int) : M W Ptr := do
  LOG "dlmopen(%ld, %s, %d)\n" [Arg.int lmid, Arg.str filename, Arg.int flags]
  let result ← real_dlmopen P lmid filename flags
  LOG "dlmopen(%ld, %s, %d) => %p\n"
    [Arg.int lmid, Arg.str filename, Arg.int flags, Arg.ptr result]
  return result

/-- The exported C function `dlopen`. -/
def dlopen (filename : Option String) (flags0 : Int) : M W Ptr := do
  LOG "dlopen(%s, %d)\n" [Arg.str filename, Arg.int flags0]
  let flags ← (if int_and flags0 RTLD_GLOBAL ≠ 0 then do
      LOG "dlopen Ignoring RTLD_GLOBAL for %s\n" [Arg.str filename]
      pure (int_and flags0 (int_not RTLD_GLOBAL))
    else pure flags0)
  let blocked ← (if is_absolute_path filename then do
      let r ← prim_access P filename R_OK
      pure (decide (r ≠ 0))
    else pure false)
  if blocked then
    LOG "dlopen(%s, %d): File not accesible\n" [Arg.str filename, Arg.int flags]
    return NULL
  LOG "dlopen => dlmopen: %s\n" [Arg.str filename]
  let result ← real_dlmopen P (← getMem).namespace_id filename flags
  if result = NULL then
    whenDebug (do
      let e ← prim_dlerror P
      fprintf_stderr "[eden #%ld] " "dlopen(%s, %d) => error: %s\n"
        [Arg.str filename, Arg.int flags, Arg.str e])
  else
    LOG "dlopen(%s, %d) => %p\n" [Arg.str filename, Arg.int flags, Arg.ptr result]
  return result

/-- The exported C function `dlclose`. -/
def dlclose (handle : Ptr) : M W Int := do
  LOG "dlclose(%p)\n" [Arg.ptr handle]
  let result ← real_dlclose P handle
  LOG "dlclose(%p) => %d\n" [Arg.ptr handle, Arg.int result]
  return result

/-- The exported C function `dlsym`. -/
def dlsym (handle : Ptr) (symbol : Option String) : M W Ptr := do
  LOG "dlsym(%p, %s)\n" [Arg.ptr handle, Arg.str symbol]
  let result ← real_dlsym P handle symbol
  LOG "dlsym(%p, %s) => %p\n" [Arg.ptr handle, Arg.str symbol, Arg.ptr result]
  return result

/-- The exported C function `eden_ctypeInit`. -/
def eden_ctypeInit : M W Unit := do
  LOG "eden_ctypeInit() with __ctype_init = %p\n" [Arg.ptr (← getMem).the_real__ctype_init]
  if (← getMem).the_real__ctype_init = UNINITIALIZED then
    LOG "__libc_dlsym(get_libc(), __ctype_init)\n" []
    let libc ← get_libc P
    let fp ← prim_libc_dlsym P libc "__ctype_init"
    setMem fun s => { s with the_real__ctype_init := fp }
  if (← getMem).the_real__ctype_init ≠ NULL then
    LOG "calling __ctype_init()\n" []
    call_ctype_init P (← getMem).the_real__ctype_init

/-- The exported C function `eden_RTLD_DEFAULT`. -/
def eden_RTLD_DEFAULT : M W Ptr := do
  LOG "eden_RTLD_DEFAULT()\n" []
  return RTLD_DEFAULT

/-- The constructor of eden.c, the C function named initialize, run once when the module
is loaded. -/
def eden_init : M W Unit := do
  let mode ← prim_getenv P "EDEN_DEBUG"
  match mode with
  | some value =>
    setMem fun s =>
      { s with eden_debug := if strcmp "true" value = 0 ∨ strcmp "1" value = 0 then 1 else 0 }
  | none => pure ()
  whenDebug (do
    let version ← prim_gnu_get_libc_version P
    fprintf_stderr "[eden #%ld] " "initialize() GNU libc version %s\n" [Arg.str (some version)])
  let libeden ← get_libeden P
  let status ← prim_dlinfo_namespace_id P libeden RTLD_DI_LMID
  if status ≠ 0 then
    let e ← prim_dlerror P
    FATAL "initialize Error obtaining namespace (dlinfo): %s\n" [Arg.str e]
  if (← getMem).namespace_id = 0 then
    FATAL "initialize libeden.so should't be loaded in the default namespace\n" []
  LOG "initialize &__ctype_b_loc: %p\n" [Arg.ptr P.ctype_b_loc_addr]
  whenDebug (do
    let p ← prim_ctype_b_loc P
    fprintf_stderr "[eden #%ld] " "initialize *__ctype_b_loc() = %p\n" [Arg.ptr p])
  whenDebug (do
    let l ← prim_setlocale P LC_ALL
    fprintf_stderr "[eden #%ld] " "Current locale: %s\n" [Arg.str l])

end Calls

end Eden

namespace Eden

/-! ## Reading traces -/

/-- Lines written to `stderr`. -/
def Event.isStderr : Event → Bool
  | Event.stderr _ _ => true
  | _ => false

/-- The calls made to the platform: the trace without the lines written to `stderr`. -/
def prims (t : List Event) : List Event := t.filter fun e => !e.isStderr

/-- The line a `LOG` writes, if the debug flag is set. -/
def logline (mem : Statics) (fmt : String) (args : List Arg) : List Event :=
  if mem.eden_debug ≠ 0 then
    [Event.stderr ("[eden #%ld] " ++ fmt) (Arg.int mem.namespace_id :: args)]
  else []

section Denotations
variable {W : Type} (P : Platform W)

/-! ## What the lazy resolution does, as functions of the machine it starts from -/

/-- The handle `get_libdl` returns. -/
def libdl_of (m : Machine W) : Ptr :=
  if m.mem.libdl = NULL then (P.libc_dlopen_mode m.world "libdl.so" RTLD_LAZY).1 else m.mem.libdl

/-- The world `get_libdl` leaves. -/
def libdl_world (m : Machine W) : W :=
  if m.mem.libdl = NULL then (P.libc_dlopen_mode m.world "libdl.so" RTLD_LAZY).2 else m.world

/-- The platform calls `get_libdl` makes. -/
def libdl_events (m : Machine W) : List Event :=
  if m.mem.libdl = NULL then
    [Event.libc_dlopen_mode "libdl.so" RTLD_LAZY (P.libc_dlopen_mode m.world "libdl.so" RTLD_LAZY).1]
  else []

/-- The handle `get_libc` returns. -/
def libc_of (m : Machine W) : Ptr :=
  if m.mem.libc = NULL then (P.libc_dlopen_mode m.world "libc.so.6" RTLD_LAZY).1 else m.mem.libc

/-- The world `get_libc` leaves. -/
def libc_world (m : Machine W) : W :=
  if m.mem.libc = NULL then (P.libc_dlopen_mode m.world "libc.so.6" RTLD_LAZY).2 else m.world

/-- The platform calls `get_libc` makes. -/
def libc_events (m : Machine W) : List Event :=
  if m.mem.libc = NULL then
    [Event.libc_dlopen_mode "libc.so.6" RTLD_LAZY
      (P.libc_dlopen_mode m.world "libc.so.6" RTLD_LAZY).1]
  else []

/-- One of the four cached pointers to a loader function: the symbol looked up, and how the
`static` variable is read and written. -/
structure Slot where
  sym : String
  get : Statics → Ptr
  set : Ptr → Statics → Statics

/-- The cache of `real_dlopen`. -/
def slot_dlopen : Slot :=
  ⟨"dlopen", fun s => s.the_real_dlopen, fun p s => { s with the_real_dlopen := p }⟩
/-- The cache of `real_dlmopen`. -/
def slot_dlmopen : Slot :=
  ⟨"dlmopen", fun s => s.the_real_dlmopen, fun p s => { s with the_real_dlmopen := p }⟩
/-- The cache of `real_dlclose`. -/
def slot_dlclose : Slot :=
  ⟨"dlclose", fun s => s.the_real_dlclose, fun p s => { s with the_real_dlclose := p }⟩
/-- The cache of `real_dlsym`. -/
def slot_dlsym : Slot :=
  ⟨"dlsym", fun s => s.the_real_dlsym, fun p s => { s with the_real_dlsym := p }⟩

/-- The result of the raw lookup `__libc_dlsym(get_libdl(), sym)` made from machine `m`. -/
def lookup_ptr (sym : String) (m : Machine W) : Ptr :=
  (P.libc_dlsym (libdl_world P m) (libdl_of P m) sym).1

/-- The world after the raw lookup `__libc_dlsym(get_libdl(), sym)` made from machine `m`. -/
def lookup_world (sym : String) (m : Machine W) : W :=
  (P.libc_dlsym (libdl_world P m) (libdl_of P m) sym).2

/-- The function pointer a `real_*` function calls through: the cached one, or else the
result of the raw lookup. -/
def pre_fp (k : Slot) (m : Machine W) : Ptr :=
  if k.get m.mem = NULL then lookup_ptr P k.sym m else k.get m.mem

/-- The machine in which a `real_*` function makes its call: `m` itself when the pointer is
cached, and otherwise `m` after `get_libdl`, the raw lookup and the store into the cache. -/
def pre_machine (k : Slot) (m : Machine W) : Machine W :=
  if k.get m.mem = NULL then
    ⟨lookup_world P k.sym m, k.set (lookup_ptr P k.sym m) { m.mem with libdl := libdl_of P m }⟩
  else m

/-- The platform calls a `real_*` function makes before its call through the pointer. -/
def pre_events (k : Slot) (m : Machine W) : List Event :=
  if k.get m.mem = NULL then
    libdl_events P m ++ [Event.libc_dlsym (libdl_of P m) k.sym (lookup_ptr P k.sym m)]
  else []

/-- The machine after the readability check of `dlopen`. -/
def access_machine (filename : Option String) (m : Machine W) : Machine W :=
  if is_absolute_path filename = true then ⟨(P.access m.world filename R_OK).2, m.mem⟩ else m

/-- The platform call the readability check of `dlopen` makes. -/
def access_events (filename : Option String) (m : Machine W) : List Event :=
  if is_absolute_path filename = true then
    [Event.access filename R_OK (P.access m.world filename R_OK).1]
  else []

/-- The condition under which `dlopen` returns early: an absolute path that `access`
rejects. -/
def blocked (filename : Option String) (m : Machine W) : Prop :=
  is_absolute_path filename = true ∧ (P.access m.world filename R_OK).1 ≠ 0

instance (filename : Option String) (m : Machine W) : Decidable (blocked P filename m) := by
  unfold blocked; infer_instance

/-- The `dlerror` call of the debug trace of a failed forward. -/
def dlerror_events (R : Res W Ptr) : List Event :=
  if R.out = Outcome.ret NULL ∧ R.st.mem.eden_debug ≠ 0 then
    [Event.dlerror (P.dlerror R.st.world).1]
  else []

/-- The machine after the debug trace of a forward. -/
def dlerror_machine (R : Res W Ptr) : Machine W :=
  if R.out = Outcome.ret NULL ∧ R.st.mem.eden_debug ≠ 0 then
    ⟨(P.dlerror R.st.world).2, R.st.mem⟩
  else R.st

/-- The pointer `eden_ctypeInit` holds after its lookup step: the cached one, or else the
result of the raw lookup of `__ctype_init` in the C library. -/
def ctype_fp (m : Machine W) : Ptr :=
  if m.mem.the_real__ctype_init = UNINITIALIZED then
    (P.libc_dlsym (libc_world P m) (libc_of P m) "__ctype_init").1
  else m.mem.the_real__ctype_init

/-- The machine after the lookup step of `eden_ctypeInit`. -/
def ctype_machine (m : Machine W) : Machine W :=
  if m.mem.the_real__ctype_init = UNINITIALIZED then
    ⟨(P.libc_dlsym (libc_world P m) (libc_of P m) "__ctype_init").2,
      { m.mem with libc := libc_of P m,
                   the_real__ctype_init :=
                     (P.libc_dlsym (libc_world P m) (libc_of P m) "__ctype_init").1 }⟩
  else m

/-- The platform calls of the lookup step of `eden_ctypeInit`. -/
def ctype_events (m : Machine W) : List Event :=
  if m.mem.the_real__ctype_init = UNINITIALIZED then
    libc_events P m ++ [Event.libc_dlsym (libc_of P m) "__ctype_init"
      (P.libc_dlsym (libc_world P m) (libc_of P m) "__ctype_init").1]
  else []


/-- Calls through a resolved pointer to one of the loader's or C library's own functions. -/
def Event.isRealCall : Event → Bool
  | Event.call_dlopen _ _ _ _ => true
  | Event.call_dlmopen _ _ _ _ _ => true
  | Event.call_dlclose _ _ _ => true
  | Event.call_dlsym _ _ _ _ => true
  | Event.call_ctype_init _ => true
  | _ => false

/-- The calls a trace makes through resolved pointers, in order. -/
def real_calls (t : List Event) : List Event := t.filter Event.isRealCall

/-- The flags `dlopen` forwards: what its first `if` statement leaves in `flags`. -/
def strip_global (flags : Int) : Int :=
  if int_and flags RTLD_GLOBAL ≠ 0 then int_and flags (int_not RTLD_GLOBAL) else flags



/-! ## A test double of the platform -/

/-- The world of the test double. -/
structure Fake where
  /-- The value of the environment variable `EDEN_DEBUG`. -/
  debug : Option String
  /-- The string `gnu_get_libc_version()` returns. -/
  version : String
  /-- The namespace id `dlinfo` reports. -/
  lmid : Int
  /-- The status `dlinfo` returns. -/
  dlinfo_status : Int
  /-- The paths `access(path, R_OK)` accepts. -/
  readable : List String
  /-- The names the loader's own `dlopen` and `dlmopen` can load. -/
  loadable : List String
  /-- The symbols `__libc_dlsym` finds, with their addresses. -/
  symbols : List (String × Ptr)
  /-- The message the next `dlerror()` returns. -/
  pending : Option String
  /-- How many times `__ctype_init` has run. -/
  ctype_inits : Nat
  deriving DecidableEq

/-- The loader's own open, in the test double: a handle for a loadable name, and otherwise
a null handle and a pending message. -/
def Fake.load (w : Fake) (filename : Option String) : Ptr × Fake :=
  match filename with
  | none => (4096, w)
  | some s =>
    if s ∈ w.loadable then (28672, w)
    else (NULL, { w with pending := some "cannot open shared object file" })

/-- The test double: handles and addresses are fixed numbers, `dlerror` returns the pending
message once and clears it. -/
def fakePlatform : Platform Fake where
  getenv w name := if name = "EDEN_DEBUG" then w.debug else none
  gnu_get_libc_version w := w.version
  libc_dlopen_mode w filename _ :=
    (if filename = "libdl.so" then 8192 else if filename = "libc.so.6" then 12288
      else if filename = "libeden.so" then 16384 else NULL, w)
  libc_dlsym w _ symbol := ((w.symbols.lookup symbol).getD NULL, w)
  access w path _ :=
    (match path with
      | some s => if s ∈ w.readable then 0 else -1
      | none => -1, w)
  dlerror w := (w.pending, { w with pending := none })
  dlinfo w _ _ old :=
    if w.dlinfo_status = 0 then ((0, w.lmid), w)
    else ((w.dlinfo_status, old), { w with pending := some "invalid handle" })
  setlocale _ _ := some "C"
  ctype_b_loc_addr := 20480
  ctype_b_loc _ := 24576
  call_dlopen w _ filename _ := w.load filename
  call_dlmopen w _ _ filename _ := w.load filename
  call_dlclose w _ _ := (0, w)
  call_dlsym w _ _ _ := (NULL, { w with pending := some "undefined symbol" })
  call_ctype_init w _ := { w with ctype_inits := w.ctype_inits + 1 }

/-- The world of the end-to-end scenario: C library version 2.31, namespace id 42, and the
file `/tmp/x.so` readable and loadable when `present`. -/
def scenario (debug : Option String) (present : Bool) : Fake where
  debug := debug
  version := "2.31"
  lmid := 42
  dlinfo_status := 0
  readable := if present then ["/tmp/x.so"] else []
  loadable := if present then ["/tmp/x.so"] else []
  symbols := [("dlopen", 32769), ("dlmopen", 32770), ("dlclose", 32771), ("dlsym", 32772),
    ("__ctype_init", 32773)]
  pending := none
  ctype_inits := 0

/-- The machine when the module has just been mapped: the `static` initializers. -/
def boot {W : Type} (w : W) : Machine W := ⟨w, Statics.initial⟩

/-- The machine of the end-to-end scenario after a successful load of the module: the
namespace id 42 is stored, the debug flag as given. -/
def loaded (debug : Int) (present : Bool) : Machine Fake :=
  ⟨scenario none present,
    { Statics.initial with namespace_id := 42, eden_debug := debug, libeden := 16384 }⟩

/-- The calls to `dlinfo` in a trace, in order. -/
def Event.isDlinfo : Event → Bool
  | Event.dlinfo _ _ _ _ => true
  | _ => false

/-- The calls to `dlinfo` in a trace, in order. -/
def dlinfo_calls (t : List Event) : List Event := t.filter Event.isDlinfo

/-- The value the constructor stores into `eden_debug`, given the result of
`getenv("EDEN_DEBUG")`. -/
def init_debug (mode : Option String) : Int :=
  match mode with
  | some value => if strcmp "true" value = 0 ∨ strcmp "1" value = 0 then 1 else 0
  | none => 0

/-- The machine in which the constructor calls `get_libeden`. -/
def init_machine (w : W) : Machine W :=
  ⟨w, { Statics.initial with eden_debug := init_debug (P.getenv w "EDEN_DEBUG") }⟩

/-- What the constructor's `dlinfo` call returns after `get_libeden` has returned `h` in
machine `s`: the status and the namespace id stored. -/
def dlinfo_result (s : Machine W) (h : Ptr) : Int × Int :=
  (P.dlinfo s.world h RTLD_DI_LMID s.mem.namespace_id).1

/-- How the constructor ends, given how its call of `get_libeden` ended. -/
def init_outcome (G : Res W Ptr) : Outcome Unit :=
  match G.out with
  | Outcome.ret h =>
    if (dlinfo_result P G.st h).1 ≠ 0 then Outcome.exited (-1)
    else if (dlinfo_result P G.st h).2 = 0 then Outcome.exited (-1)
    else Outcome.ret ()
  | Outcome.exited c => Outcome.exited c
  | Outcome.crashed => Outcome.crashed

/-- The namespace id the constructor leaves, given how its call of `get_libeden` ended. -/
def init_namespace (G : Res W Ptr) : Int :=
  match G.out with
  | Outcome.ret h => (dlinfo_result P G.st h).2
  | _ => G.st.mem.namespace_id

/-- The `dlinfo` call the constructor makes, given how its call of `get_libeden` ended. -/
def init_dlinfo (G : Res W Ptr) : List Event :=
  match G.out with
  | Outcome.ret h =>
    [Event.dlinfo h RTLD_DI_LMID (dlinfo_result P G.st h).1 (dlinfo_result P G.st h).2]
  | _ => []

/-- The constructor up to its call of `get_libeden`. -/
def init_head : M W Unit := do
  let mode ← prim_getenv P "EDEN_DEBUG"
  match mode with
  | some value =>
    setMem fun s =>
      { s with eden_debug := if strcmp "true" value = 0 ∨ strcmp "1" value = 0 then 1 else 0 }
  | none => pure ()
  whenDebug (do
    let version ← prim_gnu_get_libc_version P
    fprintf_stderr "[eden #%ld] " "initialize() GNU libc version %s\n" [Arg.str (some version)])

/-- The constructor after its call of `get_libeden` has returned `libeden`. -/
def init_rest (libeden : Ptr) : M W Unit := do
  let status ← prim_dlinfo_namespace_id P libeden RTLD_DI_LMID
  if status ≠ 0 then
    let e ← prim_dlerror P
    FATAL "initialize Error obtaining namespace (dlinfo): %s\n" [Arg.str e]
  if (← getMem).namespace_id = 0 then
    FATAL "initialize libeden.so should't be loaded in the default namespace\n" []
  LOG "initialize &__ctype_b_loc: %p\n" [Arg.ptr P.ctype_b_loc_addr]
  whenDebug (do
    let p ← prim_ctype_b_loc P
    fprintf_stderr "[eden #%ld] " "initialize *__ctype_b_loc() = %p\n" [Arg.ptr p])
  whenDebug (do
    let l ← prim_setlocale P LC_ALL
    fprintf_stderr "[eden #%ld] " "Current locale: %s\n" [Arg.str l])

/-- One call of an exported function, as client code makes it. -/
inductive Call where
  | dlopen (filename : Option String) (flags : Int)
  | dlmopen (lmid : Int) (filename : Option String) (flags : Int)
  | dlclose (handle : Ptr)
  | dlsym (handle : Ptr) (symbol : Option String)
  | eden_ctypeInit
  | eden_RTLD_DEFAULT
  deriving DecidableEq

/-- Run a C function and drop its return value. -/
def discard {α : Type} (x : M W α) : M W Unit := fun m =>
  ⟨match (x m).out with
    | Outcome.ret _ => Outcome.ret ()
    | Outcome.exited c => Outcome.exited c
    | Outcome.crashed => Outcome.crashed,
   (x m).st, (x m).trace⟩

/-- Make one call. -/
def Call.exec : Call → M W Unit
  | Call.dlopen filename flags => discard (Eden.dlopen P filename flags)
  | Call.dlmopen lmid filename flags => discard (Eden.dlmopen P lmid filename flags)
  | Call.dlclose handle => discard (Eden.dlclose P handle)
  | Call.dlsym handle symbol => discard (Eden.dlsym P handle symbol)
  | Call.eden_ctypeInit => Eden.eden_ctypeInit P
  | Call.eden_RTLD_DEFAULT => discard Eden.eden_RTLD_DEFAULT

/-- A client making a sequence of calls, one after the other, on one thread; the sequence
ends early if the process exits or crashes. -/
def run_calls : List Call → M W Unit
  | [] => pure ()
  | c :: cs => c.exec P >>= fun _ => run_calls cs

/-- The cached function pointers of the exported operations: `dlopen` and `dlmopen` call
through the first, `dlclose`, `dlsym` and `eden_ctypeInit` through the others. -/
inductive Key where
  | dlmopen
  | dlclose
  | dlsym
  | ctype_init
  deriving DecidableEq

/-- What a trace has established so far: the handle of the helper library (null until an
open has succeeded) and, for each key, the pointer a lookup has produced, if any. -/
structure Caches where
  libdl : Ptr
  dlmopen : Option Ptr
  dlclose : Option Ptr
  dlsym : Option Ptr
  ctype_init : Option Ptr
  deriving DecidableEq

/-- Read one key. -/
def Caches.get (c : Caches) : Key → Option Ptr
  | Key.dlmopen => c.dlmopen
  | Key.dlclose => c.dlclose
  | Key.dlsym => c.dlsym
  | Key.ctype_init => c.ctype_init

/-- Write one key. -/
def Caches.set (c : Caches) (k : Key) (v : Option Ptr) : Caches :=
  match k with
  | Key.dlmopen => { c with dlmopen := v }
  | Key.dlclose => { c with dlclose := v }
  | Key.dlsym => { c with dlsym := v }
  | Key.ctype_init => { c with ctype_init := v }

/-- The raw lookup an event is, if it is one: the key and the pointer found. -/
def Event.lookup? : Event → Option (Key × Ptr)
  | Event.libc_dlsym _ s r =>
    if s = "dlmopen" then some (Key.dlmopen, r)
    else if s = "dlclose" then some (Key.dlclose, r)
    else if s = "dlsym" then some (Key.dlsym, r)
    else if s = "__ctype_init" then some (Key.ctype_init, r)
    else none
  | _ => none

/-- The call through a resolved pointer an event is, if it is one: the key and the pointer
called. -/
def Event.through? : Event → Option (Key × Ptr)
  | Event.call_dlmopen fp _ _ _ _ => some (Key.dlmopen, fp)
  | Event.call_dlclose fp _ _ => some (Key.dlclose, fp)
  | Event.call_dlsym fp _ _ _ => some (Key.dlsym, fp)
  | Event.call_ctype_init fp => some (Key.ctype_init, fp)
  | _ => none

/-- The raw open of the helper library an event is, if it is one: the handle returned. -/
def Event.libdl? : Event → Option Ptr
  | Event.libc_dlopen_mode f _ r => if f = "libdl.so" then some r else none
  | _ => none

/-- One event against the caching discipline.  A raw open of the helper library is allowed
only while no open has succeeded; a raw lookup only while its key has none; a call through a
pointer only through the pointer its key's lookup produced.  Any other event is allowed. -/
def Caches.step (c : Caches) (e : Event) : Option Caches :=
  match e.libdl? with
  | some r => if c.libdl = NULL then some { c with libdl := r } else none
  | none =>
    match e.lookup? with
    | some (k, r) => if c.get k = none then some (c.set k (some r)) else none
    | none =>
      match e.through? with
      | some (k, fp) => if c.get k = some fp then some c else none
      | none => some c

/-- A trace against the caching discipline: the caches at its end, or `none` if some event
breaks the discipline. -/
def track : Caches → List Event → Option Caches
  | c, [] => some c
  | c, e :: es => (c.step e).bind fun c1 => track c1 es

/-- What the `static` variables hold, as caches: a pointer equal to its initializer counts
as not looked up. -/
def caches (s : Statics) : Caches where
  libdl := s.libdl
  dlmopen := if s.the_real_dlmopen = NULL then none else some s.the_real_dlmopen
  dlclose := if s.the_real_dlclose = NULL then none else some s.the_real_dlclose
  dlsym := if s.the_real_dlsym = NULL then none else some s.the_real_dlsym
  ctype_init :=
    if s.the_real__ctype_init = UNINITIALIZED then none else some s.the_real__ctype_init

/-- The raw lookups for one key. -/
def Event.isLookup (k : Key) (e : Event) : Bool :=
  match e.lookup? with
  | some (k1, _) => k1 = k
  | none => false

/-- The raw opens of the helper library that returned a handle. -/
def Event.isLibdlOpened (e : Event) : Bool :=
  match e.libdl? with
  | some r => r ≠ NULL
  | none => false

/-- The test double with a symbol table that does not depend on the world. -/
def steadyPlatform : Platform Fake :=
  { fakePlatform with
    libc_dlsym := fun w _ symbol => (((scenario none true).symbols.lookup symbol).getD NULL, w) }

end Denotations
end Eden

namespace Eden
section Run
variable {W : Type} (P : Platform W)

@[simp] theorem bind_run {α β : Type} (x : M W α) (f : α → M W β) (m : Machine W) :
    (x >>= f) m = match (x m).out with
      | Outcome.ret a =>
        ⟨(f a (x m).st).out, (f a (x m).st).st, (x m).trace ++ (f a (x m).st).trace⟩
      | Outcome.exited c => ⟨Outcome.exited c, (x m).st, (x m).trace⟩
      | Outcome.crashed => ⟨Outcome.crashed, (x m).st, (x m).trace⟩ := rfl

@[simp] theorem pure_run {α : Type} (a : α) (m : Machine W) :
    (pure a : M W α) m = ⟨Outcome.ret a, m, []⟩ := rfl

@[simp] theorem getMem_run (m : Machine W) : getMem m = ⟨Outcome.ret m.mem, m, []⟩ := rfl

@[simp] theorem setMem_run (f : Statics → Statics) (m : Machine W) :
    setMem f m = ⟨Outcome.ret (), ⟨m.world, f m.mem⟩, []⟩ := rfl

@[simp] theorem LOG_run (fmt : String) (args : List Arg) (m : Machine W) :
    LOG fmt args m = ⟨Outcome.ret (), m, logline m.mem fmt args⟩ := by
  unfold LOG whenDebug fprintf_stderr logline
  split <;> rfl

@[simp] theorem FATAL_run {α : Type} (fmt : String) (args : List Arg) (m : Machine W) :
    (FATAL fmt args : M W α) m = ⟨Outcome.exited (-1), m,
      [Event.stderr ("[eden #%ld] FATAL ERROR " ++ fmt) (Arg.int m.mem.namespace_id :: args)]⟩ :=
  rfl

@[simp] theorem fprintf_stderr_run (tag fmt : String) (args : List Arg) (m : Machine W) :
    fprintf_stderr tag fmt args m = ⟨Outcome.ret (), m,
      [Event.stderr (tag ++ fmt) (Arg.int m.mem.namespace_id :: args)]⟩ := rfl

@[simp] theorem whenDebug_run (body : M W Unit) (m : Machine W) :
    whenDebug body m = if m.mem.eden_debug ≠ 0 then body m else ⟨Outcome.ret (), m, []⟩ := rfl

@[simp] theorem prims_nil : prims [] = [] := rfl

@[simp] theorem prims_append (a b : List Event) : prims (a ++ b) = prims a ++ prims b := by
  simp [prims]

@[simp] theorem prims_cons (e : Event) (t : List Event) :
    prims (e :: t) = if e.isStderr = true then prims t else e :: prims t := by
  unfold prims
  cases h : e.isStderr <;> simp [List.filter, h]

@[simp] theorem prims_logline (mem : Statics) (fmt : String) (args : List Arg) :
    prims (logline mem fmt args) = [] := by
  unfold logline
  split <;> simp [Event.isStderr]

@[simp] theorem prim_getenv_run (name : String) (m : Machine W) :
    prim_getenv P name m =
      ⟨Outcome.ret (P.getenv m.world name), m, [Event.getenv name (P.getenv m.world name)]⟩ := rfl

@[simp] theorem prim_gnu_get_libc_version_run (m : Machine W) :
    prim_gnu_get_libc_version P m = ⟨Outcome.ret (P.gnu_get_libc_version m.world), m,
      [Event.gnu_get_libc_version (P.gnu_get_libc_version m.world)]⟩ := rfl

@[simp] theorem prim_libc_dlopen_mode_run (f : String) (fl : Int) (m : Machine W) :
    prim_libc_dlopen_mode P f fl m = ⟨Outcome.ret (P.libc_dlopen_mode m.world f fl).1,
      ⟨(P.libc_dlopen_mode m.world f fl).2, m.mem⟩,
      [Event.libc_dlopen_mode f fl (P.libc_dlopen_mode m.world f fl).1]⟩ := rfl

@[simp] theorem prim_libc_dlsym_run (h : Ptr) (s : String) (m : Machine W) :
    prim_libc_dlsym P h s m = ⟨Outcome.ret (P.libc_dlsym m.world h s).1,
      ⟨(P.libc_dlsym m.world h s).2, m.mem⟩,
      [Event.libc_dlsym h s (P.libc_dlsym m.world h s).1]⟩ := rfl

@[simp] theorem prim_access_run (p : Option String) (md : Int) (m : Machine W) :
    prim_access P p md m = ⟨Outcome.ret (P.access m.world p md).1,
      ⟨(P.access m.world p md).2, m.mem⟩, [Event.access p md (P.access m.world p md).1]⟩ := rfl

@[simp] theorem prim_dlerror_run (m : Machine W) :
    prim_dlerror P m = ⟨Outcome.ret (P.dlerror m.world).1, ⟨(P.dlerror m.world).2, m.mem⟩,
      [Event.dlerror (P.dlerror m.world).1]⟩ := rfl

@[simp] theorem prim_dlinfo_namespace_id_run (h : Ptr) (rq : Int) (m : Machine W) :
    prim_dlinfo_namespace_id P h rq m =
      ⟨Outcome.ret (P.dlinfo m.world h rq m.mem.namespace_id).1.1,
        ⟨(P.dlinfo m.world h rq m.mem.namespace_id).2,
          { m.mem with namespace_id := (P.dlinfo m.world h rq m.mem.namespace_id).1.2 }⟩,
        [Event.dlinfo h rq (P.dlinfo m.world h rq m.mem.namespace_id).1.1
          (P.dlinfo m.world h rq m.mem.namespace_id).1.2]⟩ := rfl

@[simp] theorem prim_setlocale_run (c : Int) (m : Machine W) :
    prim_setlocale P c m = ⟨Outcome.ret (P.setlocale m.world c), m,
      [Event.setlocale c (P.setlocale m.world c)]⟩ := rfl

@[simp] theorem prim_ctype_b_loc_run (m : Machine W) :
    prim_ctype_b_loc P m =
      ⟨Outcome.ret (P.ctype_b_loc m.world), m, [Event.ctype_b_loc (P.ctype_b_loc m.world)]⟩ := rfl

@[simp] theorem call_dlopen_run (fp : Ptr) (f : Option String) (fl : Int) (m : Machine W) :
    call_dlopen P fp f fl m = if fp = NULL then ⟨Outcome.crashed, m, []⟩
      else ⟨Outcome.ret (P.call_dlopen m.world fp f fl).1,
        ⟨(P.call_dlopen m.world fp f fl).2, m.mem⟩,
        [Event.call_dlopen fp f fl (P.call_dlopen m.world fp f fl).1]⟩ := rfl

@[simp] theorem call_dlmopen_run (fp : Ptr) (l : Int) (f : Option String) (fl : Int)
    (m : Machine W) :
    call_dlmopen P fp l f fl m = if fp = NULL then ⟨Outcome.crashed, m, []⟩
      else ⟨Outcome.ret (P.call_dlmopen m.world fp l f fl).1,
        ⟨(P.call_dlmopen m.world fp l f fl).2, m.mem⟩,
        [Event.call_dlmopen fp l f fl (P.call_dlmopen m.world fp l f fl).1]⟩ := rfl

@[simp] theorem call_dlclose_run (fp h : Ptr) (m : Machine W) :
    call_dlclose P fp h m = if fp = NULL then ⟨Outcome.crashed, m, []⟩
      else ⟨Outcome.ret (P.call_dlclose m.world fp h).1,
        ⟨(P.call_dlclose m.world fp h).2, m.mem⟩,
        [Event.call_dlclose fp h (P.call_dlclose m.world fp h).1]⟩ := rfl

@[simp] theorem call_dlsym_run (fp h : Ptr) (s : Option String) (m : Machine W) :
    call_dlsym P fp h s m = if fp = NULL then ⟨Outcome.crashed, m, []⟩
      else ⟨Outcome.ret (P.call_dlsym m.world fp h s).1,
        ⟨(P.call_dlsym m.world fp h s).2, m.mem⟩,
        [Event.call_dlsym fp h s (P.call_dlsym m.world fp h s).1]⟩ := rfl

@[simp] theorem call_ctype_init_run (fp : Ptr) (m : Machine W) :
    call_ctype_init P fp m = if fp = NULL then ⟨Outcome.crashed, m, []⟩
      else ⟨Outcome.ret (), ⟨P.call_ctype_init m.world fp, m.mem⟩,
        [Event.call_ctype_init fp]⟩ := rfl

/-! ## The helper library handles -/

@[simp] theorem get_libdl_out (m : Machine W) :
    (get_libdl P m).out = Outcome.ret (libdl_of P m) := by
  unfold get_libdl libdl_of
  by_cases h : m.mem.libdl = NULL <;> simp [h]

@[simp] theorem get_libdl_st (m : Machine W) :
    (get_libdl P m).st = ⟨libdl_world P m, { m.mem with libdl := libdl_of P m }⟩ := by
  unfold get_libdl libdl_of libdl_world
  by_cases h : m.mem.libdl = NULL <;> simp [h]

@[simp] theorem get_libdl_prims (m : Machine W) :
    prims (get_libdl P m).trace = libdl_events P m := by
  unfold get_libdl libdl_events
  by_cases h : m.mem.libdl = NULL <;> simp [h, Event.isStderr]

@[simp] theorem get_libc_out (m : Machine W) :
    (get_libc P m).out = Outcome.ret (libc_of P m) := by
  unfold get_libc libc_of
  by_cases h : m.mem.libc = NULL <;> simp [h]

@[simp] theorem get_libc_st (m : Machine W) :
    (get_libc P m).st = ⟨libc_world P m, { m.mem with libc := libc_of P m }⟩ := by
  unfold get_libc libc_of libc_world
  by_cases h : m.mem.libc = NULL <;> simp [h]

@[simp] theorem get_libc_prims (m : Machine W) :
    prims (get_libc P m).trace = libc_events P m := by
  unfold get_libc libc_events
  by_cases h : m.mem.libc = NULL <;> simp [h, Event.isStderr]

/-! ## The four `real_*` functions -/

@[simp] theorem real_dlmopen_out (l : Int) (f : Option String) (fl : Int) (m : Machine W) :
    (real_dlmopen P l f fl m).out =
      if pre_fp P slot_dlmopen m = NULL then Outcome.crashed
      else Outcome.ret (P.call_dlmopen (pre_machine P slot_dlmopen m).world
        (pre_fp P slot_dlmopen m) l f fl).1 := by
  unfold real_dlmopen pre_fp pre_machine lookup_ptr lookup_world
  by_cases h : m.mem.the_real_dlmopen = NULL
  · by_cases h2 : (P.libc_dlsym (libdl_world P m) (libdl_of P m) "dlmopen").1 = NULL <;>
      simp [h, h2, slot_dlmopen]
  · simp [h, slot_dlmopen]

@[simp] theorem real_dlmopen_st (l : Int) (f : Option String) (fl : Int) (m : Machine W) :
    (real_dlmopen P l f fl m).st =
      if pre_fp P slot_dlmopen m = NULL then pre_machine P slot_dlmopen m
      else ⟨(P.call_dlmopen (pre_machine P slot_dlmopen m).world
        (pre_fp P slot_dlmopen m) l f fl).2, (pre_machine P slot_dlmopen m).mem⟩ := by
  unfold real_dlmopen pre_fp pre_machine lookup_ptr lookup_world
  by_cases h : m.mem.the_real_dlmopen = NULL
  · by_cases h2 : (P.libc_dlsym (libdl_world P m) (libdl_of P m) "dlmopen").1 = NULL <;>
      simp [h, h2, slot_dlmopen]
  · simp [h, slot_dlmopen]

@[simp] theorem real_dlmopen_prims (l : Int) (f : Option String) (fl : Int) (m : Machine W) :
    prims (real_dlmopen P l f fl m).trace =
      pre_events P slot_dlmopen m ++
        if pre_fp P slot_dlmopen m = NULL then []
        else [Event.call_dlmopen (pre_fp P slot_dlmopen m) l f fl
          (P.call_dlmopen (pre_machine P slot_dlmopen m).world
            (pre_fp P slot_dlmopen m) l f fl).1] := by
  unfold real_dlmopen pre_fp pre_machine pre_events lookup_ptr lookup_world
  by_cases h : m.mem.the_real_dlmopen = NULL
  · by_cases h2 : (P.libc_dlsym (libdl_world P m) (libdl_of P m) "dlmopen").1 = NULL <;>
      simp [h, h2, slot_dlmopen, Event.isStderr]
  · simp [h, slot_dlmopen, Event.isStderr]

@[simp] theorem real_dlclose_out (h0 : Ptr) (m : Machine W) :
    (real_dlclose P h0 m).out =
      if pre_fp P slot_dlclose m = NULL then Outcome.crashed
      else Outcome.ret (P.call_dlclose (pre_machine P slot_dlclose m).world
        (pre_fp P slot_dlclose m) h0).1 := by
  unfold real_dlclose pre_fp pre_machine lookup_ptr lookup_world
  by_cases h : m.mem.the_real_dlclose = NULL
  · by_cases h2 : (P.libc_dlsym (libdl_world P m) (libdl_of P m) "dlclose").1 = NULL <;>
      simp [h, h2, slot_dlclose]
  · simp [h, slot_dlclose]

@[simp] theorem real_dlclose_st (h0 : Ptr) (m : Machine W) :
    (real_dlclose P h0 m).st =
      if pre_fp P slot_dlclose m = NULL then pre_machine P slot_dlclose m
      else ⟨(P.call_dlclose (pre_machine P slot_dlclose m).world
        (pre_fp P slot_dlclose m) h0).2, (pre_machine P slot_dlclose m).mem⟩ := by
  unfold real_dlclose pre_fp pre_machine lookup_ptr lookup_world
  by_cases h : m.mem.the_real_dlclose = NULL
  · by_cases h2 : (P.libc_dlsym (libdl_world P m) (libdl_of P m) "dlclose").1 = NULL <;>
      simp [h, h2, slot_dlclose]
  · simp [h, slot_dlclose]

@[simp] theorem real_dlclose_prims (h0 : Ptr) (m : Machine W) :
    prims (real_dlclose P h0 m).trace =
      pre_events P slot_dlclose m ++
        if pre_fp P slot_dlclose m = NULL then []
        else [Event.call_dlclose (pre_fp P slot_dlclose m) h0
          (P.call_dlclose (pre_machine P slot_dlclose m).world
            (pre_fp P slot_dlclose m) h0).1] := by
  unfold real_dlclose pre_fp pre_machine pre_events lookup_ptr lookup_world
  by_cases h : m.mem.the_real_dlclose = NULL
  · by_cases h2 : (P.libc_dlsym (libdl_world P m) (libdl_of P m) "dlclose").1 = NULL <;>
      simp [h, h2, slot_dlclose, Event.isStderr]
  · simp [h, slot_dlclose, Event.isStderr]

@[simp] theorem real_dlsym_out (h0 : Ptr) (s0 : Option String) (m : Machine W) :
    (real_dlsym P h0 s0 m).out =
      if pre_fp P slot_dlsym m = NULL then Outcome.crashed
      else Outcome.ret (P.call_dlsym (pre_machine P slot_dlsym m).world
        (pre_fp P slot_dlsym m) h0 s0).1 := by
  unfold real_dlsym pre_fp pre_machine lookup_ptr lookup_world
  by_cases h : m.mem.the_real_dlsym = NULL
  · by_cases h2 : (P.libc_dlsym (libdl_world P m) (libdl_of P m) "dlsym").1 = NULL <;>
      simp [h, h2, slot_dlsym]
  · simp [h, slot_dlsym]

@[simp] theorem real_dlsym_st (h0 : Ptr) (s0 : Option String) (m : Machine W) :
    (real_dlsym P h0 s0 m).st =
      if pre_fp P slot_dlsym m = NULL then pre_machine P slot_dlsym m
      else ⟨(P.call_dlsym (pre_machine P slot_dlsym m).world
        (pre_fp P slot_dlsym m) h0 s0).2, (pre_machine P slot_dlsym m).mem⟩ := by
  unfold real_dlsym pre_fp pre_machine lookup_ptr lookup_world
  by_cases h : m.mem.the_real_dlsym = NULL
  · by_cases h2 : (P.libc_dlsym (libdl_world P m) (libdl_of P m) "dlsym").1 = NULL <;>
      simp [h, h2, slot_dlsym]
  · simp [h, slot_dlsym]

@[simp] theorem real_dlsym_prims (h0 : Ptr) (s0 : Option String) (m : Machine W) :
    prims (real_dlsym P h0 s0 m).trace =
      pre_events P slot_dlsym m ++
        if pre_fp P slot_dlsym m = NULL then []
        else [Event.call_dlsym (pre_fp P slot_dlsym m) h0 s0
          (P.call_dlsym (pre_machine P slot_dlsym m).world
            (pre_fp P slot_dlsym m) h0 s0).1] := by
  unfold real_dlsym pre_fp pre_machine pre_events lookup_ptr lookup_world
  by_cases h : m.mem.the_real_dlsym = NULL
  · by_cases h2 : (P.libc_dlsym (libdl_world P m) (libdl_of P m) "dlsym").1 = NULL <;>
      simp [h, h2, slot_dlsym, Event.isStderr]
  · simp [h, slot_dlsym, Event.isStderr]

@[simp] theorem real_dlopen_out (f : Option String) (fl : Int) (m : Machine W) :
    (real_dlopen P f fl m).out =
      if pre_fp P slot_dlopen m = NULL then Outcome.crashed
      else Outcome.ret (P.call_dlopen (pre_machine P slot_dlopen m).world
        (pre_fp P slot_dlopen m) f fl).1 := by
  unfold real_dlopen pre_fp pre_machine lookup_ptr lookup_world
  by_cases h : m.mem.the_real_dlopen = NULL
  · by_cases h2 : (P.libc_dlsym (libdl_world P m) (libdl_of P m) "dlopen").1 = NULL <;>
      simp [h, h2, slot_dlopen]
  · simp [h, slot_dlopen]

@[simp] theorem real_dlopen_st (f : Option String) (fl : Int) (m : Machine W) :
    (real_dlopen P f fl m).st =
      if pre_fp P slot_dlopen m = NULL then pre_machine P slot_dlopen m
      else ⟨(P.call_dlopen (pre_machine P slot_dlopen m).world
        (pre_fp P slot_dlopen m) f fl).2, (pre_machine P slot_dlopen m).mem⟩ := by
  unfold real_dlopen pre_fp pre_machine lookup_ptr lookup_world
  by_cases h : m.mem.the_real_dlopen = NULL
  · by_cases h2 : (P.libc_dlsym (libdl_world P m) (libdl_of P m) "dlopen").1 = NULL <;>
      simp [h, h2, slot_dlopen]
  · simp [h, slot_dlopen]

@[simp] theorem real_dlopen_prims (f : Option String) (fl : Int) (m : Machine W) :
    prims (real_dlopen P f fl m).trace =
      pre_events P slot_dlopen m ++
        if pre_fp P slot_dlopen m = NULL then []
        else [Event.call_dlopen (pre_fp P slot_dlopen m) f fl
          (P.call_dlopen (pre_machine P slot_dlopen m).world
            (pre_fp P slot_dlopen m) f fl).1] := by
  unfold real_dlopen pre_fp pre_machine pre_events lookup_ptr lookup_world
  by_cases h : m.mem.the_real_dlopen = NULL
  · by_cases h2 : (P.libc_dlsym (libdl_world P m) (libdl_of P m) "dlopen").1 = NULL <;>
      simp [h, h2, slot_dlopen, Event.isStderr]
  · simp [h, slot_dlopen, Event.isStderr]

/-! ## Flag bits -/

theorem to_bits_lt (x : Int) : to_bits x < 2 ^ 32 := by
  unfold to_bits
  omega

theorem to_bits_of_bits (n : Nat) : to_bits (of_bits n) = n % 2 ^ 32 := by
  unfold to_bits of_bits
  split <;> omega

theorem of_bits_eq_zero (n : Nat) (h : of_bits n = 0) : n % 2 ^ 32 = 0 := by
  unfold of_bits at h
  split at h <;> omega

theorem to_bits_not_global : to_bits (int_not RTLD_GLOBAL) = 4294967039 := by decide

theorem to_bits_global : to_bits RTLD_GLOBAL = 256 := by decide

theorem testBit_mask (i : Nat) : Nat.testBit 4294967039 i = (decide (i < 32) && decide (i ≠ 8)) := by
  by_cases h : i < 32
  · interval_cases i <;> decide
  · have : 4294967039 < 2 ^ i := by
      calc 4294967039 < 2 ^ 32 := by norm_num
        _ ≤ 2 ^ i := Nat.pow_le_pow_right (by norm_num) (by omega)
    simp [Nat.testBit_lt_two_pow this, h]

theorem testBit_to_bits_ge (x : Int) (i : Nat) (h : 32 ≤ i) : (to_bits x).testBit i = false := by
  apply Nat.testBit_lt_two_pow
  calc to_bits x < 2 ^ 32 := to_bits_lt x
    _ ≤ 2 ^ i := Nat.pow_le_pow_right (by norm_num) h

theorem strip_global_testBit (flags : Int) (i : Nat) :
    (to_bits (strip_global flags)).testBit i = ((to_bits flags).testBit i && decide (i ≠ 8)) := by
  unfold strip_global
  split
  · unfold int_and
    rw [to_bits_of_bits, to_bits_not_global, Nat.testBit_mod_two_pow, Nat.testBit_land, testBit_mask]
    by_cases h : i < 32
    · simp [h]
    · simp [h, testBit_to_bits_ge flags i (by omega)]
  · rename_i h
    simp only [ne_eq, not_not] at h
    unfold int_and at h
    have h1 := of_bits_eq_zero _ h
    rw [to_bits_global] at h1
    by_cases h8 : i = 8
    · subst h8
      have : (to_bits flags &&& 256).testBit 8 = false := by
        have h2 : to_bits flags &&& 256 ≤ 256 := Nat.and_le_right
        have h3 : to_bits flags &&& 256 = 0 := by omega
        rw [h3]; simp
      rw [Nat.testBit_land] at this
      have h256 : Nat.testBit 256 8 = true := by decide
      simpa [h256] using this
    · simp [h8]

theorem testBit_256 (i : Nat) : Nat.testBit 256 i = decide (i = 8) := by
  have h : (256 : Nat) = 2 ^ 8 := by norm_num
  rw [h, Nat.testBit_two_pow]
  by_cases h8 : i = 8
  · simp [h8]
  · have : ¬ 8 = i := fun h => h8 h.symm
    simp [h8, this]

theorem int_and_cleared (f : Int) : int_and (int_and f (int_not RTLD_GLOBAL)) RTLD_GLOBAL = 0 := by
  unfold int_and
  rw [to_bits_of_bits, to_bits_not_global, to_bits_global]
  have h : (to_bits f &&& 4294967039) % 2 ^ 32 &&& 256 = 0 := by
    apply Nat.eq_of_testBit_eq
    intro i
    rw [Nat.testBit_land, Nat.testBit_mod_two_pow, Nat.testBit_land, testBit_mask, testBit_256]
    by_cases h8 : i = 8 <;> simp [h8]
  rw [h]
  decide

theorem strip_global_idem (flags : Int) : strip_global (strip_global flags) = strip_global flags := by
  unfold strip_global
  split
  · simp [int_and_cleared]
  · rename_i h
    simp [h]


/-! ## The exported functions -/

theorem dlopen_out (fn : Option String) (f : Int) (m : Machine W) :
    (dlopen P fn f m).out =
      if blocked P fn m then Outcome.ret NULL
      else (real_dlmopen P m.mem.namespace_id fn (strip_global f) (access_machine P fn m)).out := by
  unfold dlopen strip_global blocked access_machine
  by_cases hg : int_and f RTLD_GLOBAL = 0 <;> by_cases ha : is_absolute_path fn = true <;>
    by_cases hacc : (P.access m.world fn R_OK).1 = 0 <;>
    simp [hg, ha, hacc, -real_dlmopen_out, -real_dlmopen_st, -real_dlmopen_prims] <;>
    generalize real_dlmopen P _ _ _ _ = R <;>
    rcases R with ⟨o, s, t⟩ <;> by_cases hd : s.mem.eden_debug = 0 <;> cases o <;>
    simp [hd] <;> split <;> simp_all

theorem dlopen_st (fn : Option String) (f : Int) (m : Machine W) :
    (dlopen P fn f m).st =
      if blocked P fn m then access_machine P fn m
      else dlerror_machine P
        (real_dlmopen P m.mem.namespace_id fn (strip_global f) (access_machine P fn m)) := by
  unfold dlopen strip_global blocked access_machine dlerror_machine
  by_cases hg : int_and f RTLD_GLOBAL = 0 <;> by_cases ha : is_absolute_path fn = true <;>
    by_cases hacc : (P.access m.world fn R_OK).1 = 0 <;>
    simp [hg, ha, hacc, -real_dlmopen_out, -real_dlmopen_st, -real_dlmopen_prims] <;>
    generalize real_dlmopen P _ _ _ _ = R <;>
    rcases R with ⟨o, s, t⟩ <;> by_cases hd : s.mem.eden_debug = 0 <;> cases o <;>
    simp [hd] <;> split <;> simp_all

theorem dlopen_prims (fn : Option String) (f : Int) (m : Machine W) :
    prims (dlopen P fn f m).trace =
      access_events P fn m ++
        if blocked P fn m then []
        else prims (real_dlmopen P m.mem.namespace_id fn (strip_global f)
            (access_machine P fn m)).trace ++
          dlerror_events P
            (real_dlmopen P m.mem.namespace_id fn (strip_global f) (access_machine P fn m)) := by
  unfold dlopen strip_global blocked access_machine dlerror_events access_events
  by_cases hg : int_and f RTLD_GLOBAL = 0 <;> by_cases ha : is_absolute_path fn = true <;>
    by_cases hacc : (P.access m.world fn R_OK).1 = 0 <;>
    simp [hg, ha, hacc, Event.isStderr, -real_dlmopen_out, -real_dlmopen_st, -real_dlmopen_prims] <;>
    generalize real_dlmopen P _ _ _ _ = R <;>
    rcases R with ⟨o, s, t⟩ <;> by_cases hd : s.mem.eden_debug = 0 <;> cases o <;>
    simp [hd, Event.isStderr] <;> split <;> simp_all [Event.isStderr]

theorem dlmopen_out (l : Int) (f : Option String) (fl : Int) (m : Machine W) :
    (dlmopen P l f fl m).out = (real_dlmopen P l f fl m).out := by
  unfold dlmopen
  simp [-real_dlmopen_out, -real_dlmopen_st, -real_dlmopen_prims]
  generalize real_dlmopen P _ _ _ _ = R
  rcases R with ⟨o, s, t⟩ ; cases o <;> simp

theorem dlmopen_st (l : Int) (f : Option String) (fl : Int) (m : Machine W) :
    (dlmopen P l f fl m).st = (real_dlmopen P l f fl m).st := by
  unfold dlmopen
  simp [-real_dlmopen_out, -real_dlmopen_st, -real_dlmopen_prims]
  generalize real_dlmopen P _ _ _ _ = R
  rcases R with ⟨o, s, t⟩ ; cases o <;> simp

theorem dlmopen_prims (l : Int) (f : Option String) (fl : Int) (m : Machine W) :
    prims (dlmopen P l f fl m).trace = prims (real_dlmopen P l f fl m).trace := by
  unfold dlmopen
  simp [-real_dlmopen_out, -real_dlmopen_st, -real_dlmopen_prims]
  generalize real_dlmopen P _ _ _ _ = R
  rcases R with ⟨o, s, t⟩ ; cases o <;> simp

theorem dlclose_out (h : Ptr) (m : Machine W) :
    (dlclose P h m).out = (real_dlclose P h m).out := by
  unfold dlclose
  simp [-real_dlclose_out, -real_dlclose_st, -real_dlclose_prims]
  generalize real_dlclose P _ _ = R
  rcases R with ⟨o, s, t⟩ ; cases o <;> simp

theorem dlclose_st (h : Ptr) (m : Machine W) :
    (dlclose P h m).st = (real_dlclose P h m).st := by
  unfold dlclose
  simp [-real_dlclose_out, -real_dlclose_st, -real_dlclose_prims]
  generalize real_dlclose P _ _ = R
  rcases R with ⟨o, s, t⟩ ; cases o <;> simp

theorem dlclose_prims (h : Ptr) (m : Machine W) :
    prims (dlclose P h m).trace = prims (real_dlclose P h m).trace := by
  unfold dlclose
  simp [-real_dlclose_out, -real_dlclose_st, -real_dlclose_prims]
  generalize real_dlclose P _ _ = R
  rcases R with ⟨o, s, t⟩ ; cases o <;> simp

theorem dlsym_out (h : Ptr) (s0 : Option String) (m : Machine W) :
    (dlsym P h s0 m).out = (real_dlsym P h s0 m).out := by
  unfold dlsym
  simp [-real_dlsym_out, -real_dlsym_st, -real_dlsym_prims]
  generalize real_dlsym P _ _ _ = R
  rcases R with ⟨o, s, t⟩ ; cases o <;> simp

theorem dlsym_st (h : Ptr) (s0 : Option String) (m : Machine W) :
    (dlsym P h s0 m).st = (real_dlsym P h s0 m).st := by
  unfold dlsym
  simp [-real_dlsym_out, -real_dlsym_st, -real_dlsym_prims]
  generalize real_dlsym P _ _ _ = R
  rcases R with ⟨o, s, t⟩ ; cases o <;> simp

theorem dlsym_prims (h : Ptr) (s0 : Option String) (m : Machine W) :
    prims (dlsym P h s0 m).trace = prims (real_dlsym P h s0 m).trace := by
  unfold dlsym
  simp [-real_dlsym_out, -real_dlsym_st, -real_dlsym_prims]
  generalize real_dlsym P _ _ _ = R
  rcases R with ⟨o, s, t⟩ ; cases o <;> simp

theorem eden_ctypeInit_out (m : Machine W) : (eden_ctypeInit P m).out = Outcome.ret () := by
  unfold eden_ctypeInit
  by_cases h : m.mem.the_real__ctype_init = UNINITIALIZED
  · by_cases h2 : (P.libc_dlsym (libc_world P m) (libc_of P m) "__ctype_init").1 = NULL <;>
      simp [h, h2]
  · by_cases h2 : m.mem.the_real__ctype_init = NULL <;> simp [h, h2]

theorem eden_ctypeInit_st (m : Machine W) :
    (eden_ctypeInit P m).st =
      if ctype_fp P m = NULL then ctype_machine P m
      else ⟨P.call_ctype_init (ctype_machine P m).world (ctype_fp P m), (ctype_machine P m).mem⟩ := by
  unfold eden_ctypeInit ctype_fp ctype_machine
  by_cases h : m.mem.the_real__ctype_init = UNINITIALIZED
  · by_cases h2 : (P.libc_dlsym (libc_world P m) (libc_of P m) "__ctype_init").1 = NULL <;>
      simp [h, h2]
  · by_cases h2 : m.mem.the_real__ctype_init = NULL <;> simp [h, h2]

theorem eden_ctypeInit_prims (m : Machine W) :
    prims (eden_ctypeInit P m).trace =
      ctype_events P m ++
        if ctype_fp P m = NULL then [] else [Event.call_ctype_init (ctype_fp P m)] := by
  unfold eden_ctypeInit ctype_fp ctype_events
  by_cases h : m.mem.the_real__ctype_init = UNINITIALIZED
  · by_cases h2 : (P.libc_dlsym (libc_world P m) (libc_of P m) "__ctype_init").1 = NULL <;>
      simp [h, h2, Event.isStderr]
  · by_cases h2 : m.mem.the_real__ctype_init = NULL <;> simp [h, h2, Event.isStderr]

theorem eden_RTLD_DEFAULT_run (m : Machine W) :
    eden_RTLD_DEFAULT m =
      ⟨Outcome.ret RTLD_DEFAULT, m, logline m.mem "eden_RTLD_DEFAULT()\n" []⟩ := by
  unfold eden_RTLD_DEFAULT
  simp


theorem real_calls_prims (t : List Event) : real_calls (prims t) = real_calls t := by
  unfold real_calls prims
  rw [List.filter_filter]
  apply List.filter_congr
  intro e _
  cases e <;> simp [Event.isRealCall, Event.isStderr]

@[simp] theorem real_calls_nil : real_calls [] = [] := rfl

@[simp] theorem real_calls_cons (e : Event) (t : List Event) :
    real_calls (e :: t) = if e.isRealCall = true then e :: real_calls t else real_calls t := by
  unfold real_calls
  cases h : e.isRealCall <;> simp [List.filter, h]

@[simp] theorem real_calls_append (a b : List Event) :
    real_calls (a ++ b) = real_calls a ++ real_calls b := by
  simp [real_calls]

@[simp] theorem real_calls_libdl_events (m : Machine W) : real_calls (libdl_events P m) = [] := by
  unfold libdl_events real_calls
  split <;> simp [Event.isRealCall]

@[simp] theorem real_calls_libc_events (m : Machine W) : real_calls (libc_events P m) = [] := by
  unfold libc_events real_calls
  split <;> simp [Event.isRealCall]

@[simp] theorem real_calls_pre_events (k : Slot) (m : Machine W) :
    real_calls (pre_events P k m) = [] := by
  unfold pre_events
  split
  · simp [Event.isRealCall]
  · rfl

@[simp] theorem real_calls_access_events (f : Option String) (m : Machine W) :
    real_calls (access_events P f m) = [] := by
  unfold access_events real_calls
  split <;> simp [Event.isRealCall]

@[simp] theorem real_calls_dlerror_events (R : Res W Ptr) :
    real_calls (dlerror_events P R) = [] := by
  unfold dlerror_events real_calls
  split <;> simp [Event.isRealCall]

@[simp] theorem real_calls_ctype_events (m : Machine W) :
    real_calls (ctype_events P m) = [] := by
  unfold ctype_events
  split
  · simp [Event.isRealCall]
  · rfl

@[simp] theorem ite_run {α : Type} (c : Prop) [Decidable c] (x y : M W α) (m : Machine W) :
    (if c then x else y) m = if c then x m else y m := by
  split <;> rfl

theorem M_bind_assoc {α β γ : Type} (x : M W α) (f : α → M W β) (g : β → M W γ) :
    (x >>= f) >>= g = x >>= fun a => f a >>= g := by
  funext m
  simp only [bind_run]
  rcases hx : x m with ⟨o, s, t⟩
  cases o with
  | ret a =>
    simp only
    rcases hf : f a s with ⟨o2, s2, t2⟩
    cases o2 <;> simp [List.append_assoc]
  | exited c => simp
  | crashed => simp

theorem M_pure_bind {α β : Type} (a : α) (f : α → M W β) : pure a >>= f = f a := by
  funext m
  simp

theorem eden_init_eq :
    eden_init P = (init_head P >>= fun _ => get_libeden P >>= fun h => init_rest P h) := by
  unfold eden_init init_head init_rest
  simp only [M_bind_assoc]
  congr 1
  funext mode
  cases mode <;> simp only [M_bind_assoc, M_pure_bind] <;> rfl

theorem dlinfo_calls_prims (t : List Event) : dlinfo_calls (prims t) = dlinfo_calls t := by
  unfold dlinfo_calls prims
  rw [List.filter_filter]
  apply List.filter_congr
  intro e _
  cases e <;> simp [Event.isStderr, Event.isDlinfo]

@[simp] theorem dlinfo_calls_cons (e : Event) (t : List Event) :
    dlinfo_calls (e :: t) = if e.isDlinfo = true then e :: dlinfo_calls t else dlinfo_calls t := by
  unfold dlinfo_calls
  cases h : e.isDlinfo <;> simp [List.filter, h]

@[simp] theorem dlinfo_calls_nil : dlinfo_calls [] = [] := rfl

@[simp] theorem dlinfo_calls_append (a b : List Event) :
    dlinfo_calls (a ++ b) = dlinfo_calls a ++ dlinfo_calls b := by
  simp [dlinfo_calls]

@[simp] theorem dlinfo_calls_logline (mem : Statics) (fmt : String) (args : List Arg) :
    dlinfo_calls (logline mem fmt args) = [] := by
  unfold logline
  split <;> simp [Event.isDlinfo]

@[simp] theorem dlinfo_calls_libdl_events (m : Machine W) :
    dlinfo_calls (libdl_events P m) = [] := by
  unfold libdl_events
  split <;> simp [Event.isDlinfo]

@[simp] theorem dlinfo_calls_pre_events (k : Slot) (m : Machine W) :
    dlinfo_calls (pre_events P k m) = [] := by
  unfold pre_events
  split
  · simp [Event.isDlinfo]
  · rfl

theorem init_head_out (m : Machine W) : (init_head P m).out = Outcome.ret () := by
  unfold init_head
  cases hm : P.getenv m.world "EDEN_DEBUG" <;> simp [hm] <;> split_ifs <;> simp

theorem init_head_st (w : W) : (init_head P (boot w)).st = init_machine P w := by
  unfold init_head init_machine init_debug boot
  cases hm : P.getenv w "EDEN_DEBUG" <;> simp [hm, Statics.initial] <;> split_ifs <;> simp

theorem init_head_dlinfo (m : Machine W) : dlinfo_calls (init_head P m).trace = [] := by
  unfold init_head
  cases hm : P.getenv m.world "EDEN_DEBUG" <;> simp [hm, Event.isDlinfo] <;>
    split_ifs <;> simp [Event.isDlinfo]

theorem init_rest_out (h : Ptr) (s : Machine W) :
    (init_rest P h s).out =
      if (dlinfo_result P s h).1 ≠ 0 then Outcome.exited (-1)
      else if (dlinfo_result P s h).2 = 0 then Outcome.exited (-1)
      else Outcome.ret () := by
  unfold init_rest dlinfo_result
  simp
  split_ifs <;> simp_all

theorem init_rest_namespace (h : Ptr) (s : Machine W) :
    (init_rest P h s).st.mem.namespace_id = (dlinfo_result P s h).2 := by
  unfold init_rest dlinfo_result
  simp
  split_ifs <;> simp_all

theorem init_rest_debug (h : Ptr) (s : Machine W) :
    (init_rest P h s).st.mem.eden_debug = s.mem.eden_debug := by
  unfold init_rest
  simp
  split_ifs <;> simp_all

theorem init_rest_dlinfo (h : Ptr) (s : Machine W) :
    dlinfo_calls (init_rest P h s).trace =
      [Event.dlinfo h RTLD_DI_LMID (dlinfo_result P s h).1 (dlinfo_result P s h).2] := by
  unfold init_rest dlinfo_result
  simp
  split_ifs <;> simp_all [Event.isDlinfo]

@[simp] theorem pre_machine_dlopen_namespace_id (m : Machine W) :
    (pre_machine P slot_dlopen m).mem.namespace_id = m.mem.namespace_id := by
  unfold pre_machine
  split <;> simp [slot_dlopen]

@[simp] theorem pre_machine_dlopen_eden_debug (m : Machine W) :
    (pre_machine P slot_dlopen m).mem.eden_debug = m.mem.eden_debug := by
  unfold pre_machine
  split <;> simp [slot_dlopen]

@[simp] theorem pre_machine_dlopen_the_real__ctype_init (m : Machine W) :
    (pre_machine P slot_dlopen m).mem.the_real__ctype_init = m.mem.the_real__ctype_init := by
  unfold pre_machine
  split <;> simp [slot_dlopen]

@[simp] theorem pre_machine_dlopen_libc (m : Machine W) :
    (pre_machine P slot_dlopen m).mem.libc = m.mem.libc := by
  unfold pre_machine
  split <;> simp [slot_dlopen]

@[simp] theorem pre_machine_dlmopen_namespace_id (m : Machine W) :
    (pre_machine P slot_dlmopen m).mem.namespace_id = m.mem.namespace_id := by
  unfold pre_machine
  split <;> simp [slot_dlmopen]

@[simp] theorem pre_machine_dlmopen_eden_debug (m : Machine W) :
    (pre_machine P slot_dlmopen m).mem.eden_debug = m.mem.eden_debug := by
  unfold pre_machine
  split <;> simp [slot_dlmopen]

@[simp] theorem pre_machine_dlmopen_the_real__ctype_init (m : Machine W) :
    (pre_machine P slot_dlmopen m).mem.the_real__ctype_init = m.mem.the_real__ctype_init := by
  unfold pre_machine
  split <;> simp [slot_dlmopen]

@[simp] theorem pre_machine_dlmopen_libc (m : Machine W) :
    (pre_machine P slot_dlmopen m).mem.libc = m.mem.libc := by
  unfold pre_machine
  split <;> simp [slot_dlmopen]

@[simp] theorem pre_machine_dlclose_namespace_id (m : Machine W) :
    (pre_machine P slot_dlclose m).mem.namespace_id = m.mem.namespace_id := by
  unfold pre_machine
  split <;> simp [slot_dlclose]

@[simp] theorem pre_machine_dlclose_eden_debug (m : Machine W) :
    (pre_machine P slot_dlclose m).mem.eden_debug = m.mem.eden_debug := by
  unfold pre_machine
  split <;> simp [slot_dlclose]

@[simp] theorem pre_machine_dlclose_the_real__ctype_init (m : Machine W) :
    (pre_machine P slot_dlclose m).mem.the_real__ctype_init = m.mem.the_real__ctype_init := by
  unfold pre_machine
  split <;> simp [slot_dlclose]

@[simp] theorem pre_machine_dlclose_libc (m : Machine W) :
    (pre_machine P slot_dlclose m).mem.libc = m.mem.libc := by
  unfold pre_machine
  split <;> simp [slot_dlclose]

@[simp] theorem pre_machine_dlsym_namespace_id (m : Machine W) :
    (pre_machine P slot_dlsym m).mem.namespace_id = m.mem.namespace_id := by
  unfold pre_machine
  split <;> simp [slot_dlsym]

@[simp] theorem pre_machine_dlsym_eden_debug (m : Machine W) :
    (pre_machine P slot_dlsym m).mem.eden_debug = m.mem.eden_debug := by
  unfold pre_machine
  split <;> simp [slot_dlsym]

@[simp] theorem pre_machine_dlsym_the_real__ctype_init (m : Machine W) :
    (pre_machine P slot_dlsym m).mem.the_real__ctype_init = m.mem.the_real__ctype_init := by
  unfold pre_machine
  split <;> simp [slot_dlsym]

@[simp] theorem pre_machine_dlsym_libc (m : Machine W) :
    (pre_machine P slot_dlsym m).mem.libc = m.mem.libc := by
  unfold pre_machine
  split <;> simp [slot_dlsym]

theorem get_libeden_debug (m : Machine W) :
    (get_libeden P m).st.mem.eden_debug = m.mem.eden_debug := by
  unfold get_libeden
  by_cases h0 : m.mem.libeden = NULL <;>
    by_cases hmaj : (sscanf_d_dot_d (P.gnu_get_libc_version m.world) 0 0).1 = 2 <;>
    by_cases hmin : (sscanf_d_dot_d (P.gnu_get_libc_version m.world) 0 0).2 < 17 <;>
    by_cases hp : pre_fp P slot_dlopen m = NULL <;>
    simp [h0, hmaj, hmin, hp]

theorem get_libeden_dlinfo (m : Machine W) : dlinfo_calls (get_libeden P m).trace = [] := by
  rw [← dlinfo_calls_prims]
  unfold get_libeden
  by_cases h0 : m.mem.libeden = NULL <;>
    by_cases hmaj : (sscanf_d_dot_d (P.gnu_get_libc_version m.world) 0 0).1 = 2 <;>
    by_cases hmin : (sscanf_d_dot_d (P.gnu_get_libc_version m.world) 0 0).2 < 17 <;>
    by_cases hp : pre_fp P slot_dlopen m = NULL <;>
    simp [h0, hmaj, hmin, hp, Event.isStderr, Event.isDlinfo]

theorem init_run (w : W) :
    eden_init P (boot w) =
      match (get_libeden P (init_machine P w)).out with
      | Outcome.ret h =>
        ⟨(init_rest P h (get_libeden P (init_machine P w)).st).out,
          (init_rest P h (get_libeden P (init_machine P w)).st).st,
          (init_head P (boot w)).trace ++ ((get_libeden P (init_machine P w)).trace ++
            (init_rest P h (get_libeden P (init_machine P w)).st).trace)⟩
      | Outcome.exited c =>
        ⟨Outcome.exited c, (get_libeden P (init_machine P w)).st,
          (init_head P (boot w)).trace ++ (get_libeden P (init_machine P w)).trace⟩
      | Outcome.crashed =>
        ⟨Outcome.crashed, (get_libeden P (init_machine P w)).st,
          (init_head P (boot w)).trace ++ (get_libeden P (init_machine P w)).trace⟩ := by
  rw [eden_init_eq]
  simp only [bind_run, init_head_out, init_head_st]
  cases (get_libeden P (init_machine P w)).out <;> rfl

theorem strcmp_chars_eq_zero (a b : List Char) : strcmp_chars a b = 0 ↔ a = b := by
  induction a generalizing b with
  | nil => cases b <;> simp [strcmp_chars]
  | cons x xs ih =>
    cases b with
    | nil => simp [strcmp_chars]
    | cons y ys =>
      simp only [strcmp_chars]
      by_cases h : x = y
      · simp [h, ih]
      · simp [h]
        split <;> simp

theorem strcmp_eq_zero (a b : String) : strcmp a b = 0 ↔ a = b := by
  unfold strcmp
  rw [strcmp_chars_eq_zero]
  constructor
  · intro h
    exact String.ext h
  · intro h
    rw [h]

theorem init_debug_ne_zero (mode : Option String) :
    init_debug mode ≠ 0 ↔ (mode = some "true" ∨ mode = some "1") := by
  unfold init_debug
  cases mode with
  | none => simp
  | some v =>
    simp only [strcmp_eq_zero]
    by_cases h : "true" = v ∨ "1" = v
    · simp only [h, if_true]
      rcases h with h | h <;> simp [← h]
    · simp only [h, if_false]
      simp only [not_or] at h
      simp
      exact ⟨fun e => h.1 e.symm, fun e => h.2 e.symm⟩

theorem init_final_debug (w : W) :
    (eden_init P (boot w)).st.mem.eden_debug = init_debug (P.getenv w "EDEN_DEBUG") := by
  rw [init_run]
  rcases hx : (get_libeden P (init_machine P w)).out with h | c | _ <;>
    simp [init_rest_debug, get_libeden_debug, init_machine]

theorem strip_global_of_set (f : Int) (hg : int_and f RTLD_GLOBAL ≠ 0) :
    strip_global f = int_and f (int_not RTLD_GLOBAL) := by
  unfold strip_global
  simp [hg]

theorem strip_global_cleared (f : Int) :
    strip_global (int_and f (int_not RTLD_GLOBAL)) = int_and f (int_not RTLD_GLOBAL) := by
  unfold strip_global
  simp [int_and_cleared]

theorem mem_real_calls (e : Event) (t : List Event) (h : e ∈ t) (hc : e.isRealCall = true) :
    e ∈ real_calls (prims t) := by
  rw [real_calls_prims]
  exact List.mem_filter.2 ⟨h, hc⟩

@[simp] theorem discard_st {α : Type} (x : M W α) (m : Machine W) :
    (discard x m).st = (x m).st := rfl

@[simp] theorem discard_trace {α : Type} (x : M W α) (m : Machine W) :
    (discard x m).trace = (x m).trace := rfl

theorem discard_out {α : Type} (x : M W α) (m : Machine W) :
    (discard x m).out = match (x m).out with
      | Outcome.ret _ => Outcome.ret ()
      | Outcome.exited c => Outcome.exited c
      | Outcome.crashed => Outcome.crashed := rfl

@[simp] theorem access_machine_mem (f : Option String) (m : Machine W) :
    (access_machine P f m).mem = m.mem := by
  unfold access_machine
  split <;> rfl

@[simp] theorem dlerror_machine_mem (R : Res W Ptr) :
    (dlerror_machine P R).mem = R.st.mem := by
  unfold dlerror_machine
  split <;> rfl

@[simp] theorem ctype_machine_namespace_id (m : Machine W) :
    (ctype_machine P m).mem.namespace_id = m.mem.namespace_id := by
  unfold ctype_machine
  split <;> rfl

theorem exec_namespace (c : Call) (m : Machine W) :
    (c.exec P m).st.mem.namespace_id = m.mem.namespace_id := by
  cases c with
  | dlopen f fl =>
    simp only [Call.exec, discard_st, dlopen_st]
    split <;> simp <;> split <;> simp
  | dlmopen l f fl =>
    simp only [Call.exec, discard_st, dlmopen_st, real_dlmopen_st]
    split <;> simp
  | dlclose h =>
    simp only [Call.exec, discard_st, dlclose_st, real_dlclose_st]
    split <;> simp
  | dlsym h s =>
    simp only [Call.exec, discard_st, dlsym_st, real_dlsym_st]
    split <;> simp
  | eden_ctypeInit =>
    simp only [Call.exec, eden_ctypeInit_st]
    split <;> simp
  | eden_RTLD_DEFAULT =>
    simp [Call.exec, eden_RTLD_DEFAULT_run]

theorem run_calls_namespace (cs : List Call) (m : Machine W) :
    (run_calls P cs m).st.mem.namespace_id = m.mem.namespace_id := by
  induction cs generalizing m with
  | nil => simp [run_calls]
  | cons c cs ih =>
    simp only [run_calls, bind_run]
    rcases hx : (c.exec P m).out with u | x | _
    · simp only [ih]
      exact exec_namespace P c m
    · exact exec_namespace P c m
    · exact exec_namespace P c m

theorem init_namespace_of_ret (w : W) (hinit : (eden_init P (boot w)).out = Outcome.ret ()) :
    (eden_init P (boot w)).st.mem.namespace_id ≠ 0 ∧
    ∃ h, dlinfo_calls (eden_init P (boot w)).trace =
      [Event.dlinfo h RTLD_DI_LMID 0 (eden_init P (boot w)).st.mem.namespace_id] := by
  have hGd := get_libeden_dlinfo P (init_machine P w)
  have hHd := init_head_dlinfo P (boot w)
  rw [init_run] at hinit ⊢
  rcases hx : (get_libeden P (init_machine P w)).out with h | c | _
  · rw [hx] at hinit
    simp only at hinit ⊢
    have hR := init_rest_out P h (get_libeden P (init_machine P w)).st
    have hRd := init_rest_dlinfo P h (get_libeden P (init_machine P w)).st
    have hRn := init_rest_namespace P h (get_libeden P (init_machine P w)).st
    rw [hinit] at hR
    simp only [dlinfo_calls_append, hGd, hHd, hRd, hRn, List.nil_append]
    split_ifs at hR with h1 h2
    simp only [ne_eq, not_not] at h1
    exact ⟨h2, h, by rw [h1]⟩
  · rw [hx] at hinit
    simp at hinit
  · rw [hx] at hinit
    simp at hinit

theorem ctype_cache_after (m : Machine W) :
    (eden_ctypeInit P m).st.mem.the_real__ctype_init = ctype_fp P m := by
  have hc : (ctype_machine P m).mem.the_real__ctype_init = ctype_fp P m := by
    unfold ctype_machine ctype_fp
    split <;> rfl
  rw [eden_ctypeInit_st]
  split <;> exact hc

theorem ctype_fp_cached (m : Machine W) (hU : m.mem.the_real__ctype_init ≠ UNINITIALIZED) :
    ctype_fp P m = m.mem.the_real__ctype_init := by
  unfold ctype_fp
  rw [if_neg hU]

theorem ctype_fp_after (m : Machine W) (hU : ctype_fp P m ≠ UNINITIALIZED) :
    ctype_fp P (eden_ctypeInit P m).st = ctype_fp P m := by
  rw [ctype_fp_cached P _ (by rw [ctype_cache_after]; exact hU), ctype_cache_after]

theorem real_calls_eden_ctypeInit (m : Machine W) :
    real_calls (eden_ctypeInit P m).trace =
      if ctype_fp P m = NULL then [] else [Event.call_ctype_init (ctype_fp P m)] := by
  rw [← real_calls_prims, eden_ctypeInit_prims]
  split <;> simp [Event.isRealCall]

theorem run_ctypeInit (n : Nat) (m : Machine W) (hU : ctype_fp P m ≠ UNINITIALIZED) :
    (run_calls P (List.replicate n Call.eden_ctypeInit) m).out = Outcome.ret () ∧
    real_calls (run_calls P (List.replicate n Call.eden_ctypeInit) m).trace =
      if ctype_fp P m = NULL then []
      else List.replicate n (Event.call_ctype_init (ctype_fp P m)) := by
  induction n generalizing m with
  | zero => simp [run_calls]
  | succ n ih =>
    have h1 := ctype_fp_after P m hU
    have ih' := ih (eden_ctypeInit P m).st (by rw [h1]; exact hU)
    rw [h1] at ih'
    simp only [List.replicate_succ, run_calls, Call.exec, bind_run, eden_ctypeInit_out,
      real_calls_append, real_calls_eden_ctypeInit, ih'.1, ih'.2, true_and]
    split <;> simp

theorem track_append (c : Caches) (a b : List Event) :
    track c (a ++ b) = (track c a).bind fun c1 => track c1 b := by
  induction a generalizing c with
  | nil => simp [track]
  | cons e es ih =>
    simp only [List.cons_append, track]
    cases c.step e with
    | none => simp
    | some c1 => simp [ih]

theorem step_stderr (c : Caches) (e : Event) (h : e.isStderr = true) : c.step e = some c := by
  cases e <;> simp_all [Event.isStderr, Caches.step, Event.libdl?, Event.lookup?, Event.through?]

theorem track_prims (c : Caches) (t : List Event) : track c (prims t) = track c t := by
  induction t generalizing c with
  | nil => rfl
  | cons e es ih =>
    rw [prims_cons]
    by_cases h : e.isStderr = true
    · simp [h, track, step_stderr c e h, ih]
    · simp [h, track, ih]

theorem get_set (c : Caches) (k k1 : Key) (v : Option Ptr) :
    (c.set k v).get k1 = if k1 = k then v else c.get k1 := by
  cases k <;> cases k1 <;> simp [Caches.get, Caches.set]

theorem step_get (c c1 : Caches) (e : Event) (h : c.step e = some c1) (k : Key) (v : Ptr)
    (hv : c.get k = some v) : c1.get k = some v := by
  unfold Caches.step at h
  split at h
  · split at h
    · injection h with h; subst h; cases k <;> simpa [Caches.get] using hv
    · simp at h
  · split at h
    · rename_i k1 r _
      split at h
      · injection h with h; subst h
        rw [get_set]
        by_cases hk : k = k1
        · subst hk; simp_all
        · simp [hk, hv]
      · simp at h
    · split at h
      · split at h
        · injection h with h; subst h; exact hv
        · simp at h
      · injection h with h; subst h; exact hv

theorem track_get (c c1 : Caches) (t : List Event) (h : track c t = some c1) (k : Key) (v : Ptr)
    (hv : c.get k = some v) : c1.get k = some v := by
  induction t generalizing c with
  | nil => simp [track] at h; subst h; exact hv
  | cons e es ih =>
    simp only [track] at h
    cases hs : c.step e with
    | none => simp [hs] at h
    | some c2 =>
      simp [hs] at h
      exact ih c2 h (step_get c c2 e hs k v hv)

theorem step_lookup (c c1 : Caches) (e : Event) (h : c.step e = some c1) (k : Key) (r : Ptr)
    (hl : e.lookup? = some (k, r)) : c.get k = none ∧ c1.get k = some r := by
  have hd : e.libdl? = none := by
    cases e <;> simp_all [Event.lookup?, Event.libdl?]
  unfold Caches.step at h
  simp only [hd, hl] at h
  split at h
  · rename_i hn
    injection h with h; subst h
    exact ⟨hn, by simp [get_set]⟩
  · simp at h

theorem step_through (c c1 : Caches) (e : Event) (h : c.step e = some c1) (k : Key) (fp : Ptr)
    (hl : e.through? = some (k, fp)) : c1.get k = some fp := by
  have hd : e.libdl? = none := by
    cases e <;> simp_all [Event.through?, Event.libdl?]
  have hk : e.lookup? = none := by
    cases e <;> simp_all [Event.through?, Event.lookup?]
  unfold Caches.step at h
  simp only [hd, hk, hl] at h
  split at h
  · rename_i hn
    injection h with h; subst h
    exact hn
  · simp at h

theorem step_not_lookup (c c1 : Caches) (e : Event) (h : c.step e = some c1) (k : Key)
    (hl : e.isLookup k = false) : c1.get k = c.get k := by
  unfold Caches.step at h
  split at h
  · split at h
    · injection h with h; subst h; cases k <;> rfl
    · simp at h
  · split at h
    · rename_i k1 r hk
      split at h
      · injection h with h; subst h
        rw [get_set]
        have : k ≠ k1 := by
          intro heq
          simp [Event.isLookup, hk, heq] at hl
        simp [this]
      · simp at h
    · split at h
      · split at h
        · injection h with h; subst h; rfl
        · simp at h
      · injection h with h; subst h; rfl

theorem track_lookup_count (c c1 : Caches) (t : List Event) (h : track c t = some c1)
    (k : Key) :
    (t.filter (Event.isLookup k)).length ≤ (if c.get k = none then 1 else 0) := by
  induction t generalizing c with
  | nil => simp
  | cons e es ih =>
    simp only [track] at h
    cases hs : c.step e with
    | none => simp [hs] at h
    | some c2 =>
      simp [hs] at h
      have ih2 := ih c2 h
      by_cases hl : e.isLookup k = true
      · have : ∃ r, e.lookup? = some (k, r) := by
          unfold Event.isLookup at hl
          split at hl
          · rename_i k1 r hk
            simp at hl
            exact ⟨r, by rw [hk, hl]⟩
          · simp at hl
        obtain ⟨r, hr⟩ := this
        have hsl := step_lookup c c2 e hs k r hr
        simp [hsl.2] at ih2
        simpa [List.filter, hl, hsl.1] using ih2
      · simp only [Bool.not_eq_true] at hl
        have hg := step_not_lookup c c2 e hs k hl
        rw [hg] at ih2
        simpa [List.filter, hl] using ih2

theorem track_lookup_result (c c1 : Caches) (t : List Event) (h : track c t = some c1)
    (e : Event) (he : e ∈ t) (k : Key) (r : Ptr) (hl : e.lookup? = some (k, r)) :
    c1.get k = some r := by
  induction t generalizing c with
  | nil => simp at he
  | cons x xs ih =>
    simp only [track] at h
    cases hs : c.step x with
    | none => simp [hs] at h
    | some c2 =>
      simp [hs] at h
      rcases List.mem_cons.1 he with heq | hmem
      · subst heq
        exact track_get c2 c1 xs h k r (step_lookup c c2 e hs k r hl).2
      · exact ih c2 h hmem

theorem track_through (c c1 : Caches) (t : List Event) (h : track c t = some c1)
    (e : Event) (he : e ∈ t) (k : Key) (fp : Ptr) (hl : e.through? = some (k, fp)) :
    c1.get k = some fp := by
  induction t generalizing c with
  | nil => simp at he
  | cons x xs ih =>
    simp only [track] at h
    cases hs : c.step x with
    | none => simp [hs] at h
    | some c2 =>
      simp [hs] at h
      rcases List.mem_cons.1 he with heq | hmem
      · subst heq
        exact track_get c2 c1 xs h k fp (step_through c c2 e hs k fp hl)
      · exact ih c2 h hmem

theorem step_libdl (c c1 : Caches) (e : Event) (h : c.step e = some c1) :
    (e.isLibdlOpened = true → c.libdl = NULL ∧ c1.libdl ≠ NULL) ∧
    (c.libdl ≠ NULL → c1.libdl ≠ NULL ∧ e.isLibdlOpened = false) := by
  unfold Caches.step at h
  unfold Event.isLibdlOpened
  split at h
  · rename_i r hr
    split at h
    · rename_i h0
      injection h with h; subst h
      simp [hr, h0]
    · simp at h
  · rename_i hr
    simp only [hr]
    split at h
    · split at h
      · injection h with h; subst h
        rename_i k r _ _
        cases k <;> simp [Caches.set]
      · simp at h
    · split at h
      · split at h
        · injection h with h; subst h; simp
        · simp at h
      · injection h with h; subst h; simp

theorem track_libdl_count (c c1 : Caches) (t : List Event) (h : track c t = some c1) :
    (t.filter Event.isLibdlOpened).length ≤ (if c.libdl = NULL then 1 else 0) := by
  induction t generalizing c with
  | nil => simp
  | cons e es ih =>
    simp only [track] at h
    cases hs : c.step e with
    | none => simp [hs] at h
    | some c2 =>
      simp [hs] at h
      have ih2 := ih c2 h
      have hst := step_libdl c c2 e hs
      by_cases hl : e.isLibdlOpened = true
      · have h1 := hst.1 hl
        simp [h1.2] at ih2
        simpa [List.filter, hl, h1.1] using ih2
      · simp only [Bool.not_eq_true] at hl
        by_cases h0 : c.libdl = NULL
        · simp only [List.filter, hl, h0, if_true]
          refine le_trans ih2 ?_
          split <;> simp
        · have h1 := hst.2 h0
          simp [h1.1] at ih2
          simpa [List.filter, hl, h0] using ih2

theorem step_other (c : Caches) (e : Event) (h1 : e.libdl? = none) (h2 : e.lookup? = none)
    (h3 : e.through? = none) : c.step e = some c := by
  unfold Caches.step
  simp [h1, h2, h3]

theorem track_libdl_events (m : Machine W) :
    track (caches m.mem) (libdl_events P m) =
      some { caches m.mem with libdl := libdl_of P m } := by
  unfold libdl_events libdl_of
  by_cases h : m.mem.libdl = NULL
  · simp [h, track, Caches.step, Event.libdl?, caches]
  · simp [h, track, caches]

theorem track_libc_events (c : Caches) (m : Machine W) :
    track c (libc_events P m) = some c := by
  unfold libc_events
  split
  · simp [track, Caches.step, Event.libdl?, Event.lookup?, Event.through?]
  · rfl

theorem track_access_events (c : Caches) (f : Option String) (m : Machine W) :
    track c (access_events P f m) = some c := by
  unfold access_events
  split
  · simp [track, Caches.step, Event.libdl?, Event.lookup?, Event.through?]
  · rfl

theorem track_dlerror_events (c : Caches) (R : Res W Ptr) :
    track c (dlerror_events P R) = some c := by
  unfold dlerror_events
  split
  · simp [track, Caches.step, Event.libdl?, Event.lookup?, Event.through?]
  · rfl

/-- The caches after the resolution step of `real_dlmopen`. -/
theorem track_pre_dlmopen (m : Machine W) :
    track (caches m.mem) (pre_events P slot_dlmopen m) =
      some { caches (pre_machine P slot_dlmopen m).mem with
        dlmopen := some (pre_fp P slot_dlmopen m) } := by
  unfold pre_events pre_machine pre_fp
  by_cases h : m.mem.the_real_dlmopen = NULL
  · simp only [slot_dlmopen, h, if_true]
    rw [track_append, track_libdl_events]
    simp [track, Caches.step, Event.libdl?, Event.lookup?, caches, h, Caches.get, Caches.set]
  · simp [slot_dlmopen, h, track, caches]

theorem track_pre_dlclose (m : Machine W) :
    track (caches m.mem) (pre_events P slot_dlclose m) =
      some { caches (pre_machine P slot_dlclose m).mem with
        dlclose := some (pre_fp P slot_dlclose m) } := by
  unfold pre_events pre_machine pre_fp
  by_cases h : m.mem.the_real_dlclose = NULL
  · simp only [slot_dlclose, h, if_true]
    rw [track_append, track_libdl_events]
    simp [track, Caches.step, Event.libdl?, Event.lookup?, caches, h, Caches.get, Caches.set]
  · simp [slot_dlclose, h, track, caches]

theorem track_pre_dlsym (m : Machine W) :
    track (caches m.mem) (pre_events P slot_dlsym m) =
      some { caches (pre_machine P slot_dlsym m).mem with
        dlsym := some (pre_fp P slot_dlsym m) } := by
  unfold pre_events pre_machine pre_fp
  by_cases h : m.mem.the_real_dlsym = NULL
  · simp only [slot_dlsym, h, if_true]
    rw [track_append, track_libdl_events]
    simp [track, Caches.step, Event.libdl?, Event.lookup?, caches, h, Caches.get, Caches.set]
  · simp [slot_dlsym, h, track, caches]

theorem pre_machine_dlmopen_cache (m : Machine W) :
    (pre_machine P slot_dlmopen m).mem.the_real_dlmopen = pre_fp P slot_dlmopen m := by
  unfold pre_machine pre_fp
  split <;> simp [slot_dlmopen]

theorem pre_machine_dlclose_cache (m : Machine W) :
    (pre_machine P slot_dlclose m).mem.the_real_dlclose = pre_fp P slot_dlclose m := by
  unfold pre_machine pre_fp
  split <;> simp [slot_dlclose]

theorem pre_machine_dlsym_cache (m : Machine W) :
    (pre_machine P slot_dlsym m).mem.the_real_dlsym = pre_fp P slot_dlsym m := by
  unfold pre_machine pre_fp
  split <;> simp [slot_dlsym]

/-- The discipline along `real_dlmopen`: the trace is accepted, and when the call returns the
caches at its end are those of the `static` variables. -/
theorem track_real_dlmopen (l : Int) (f : Option String) (fl : Int) (m : Machine W) :
    (track (caches m.mem) (prims (real_dlmopen P l f fl m).trace)).isSome = true ∧
    (∀ r, (real_dlmopen P l f fl m).out = Outcome.ret r →
      track (caches m.mem) (prims (real_dlmopen P l f fl m).trace) =
        some (caches (real_dlmopen P l f fl m).st.mem)) := by
  rw [real_dlmopen_prims, real_dlmopen_out, real_dlmopen_st, track_append, track_pre_dlmopen]
  by_cases hp : pre_fp P slot_dlmopen m = NULL
  · simp [hp, track]
  · have hc := pre_machine_dlmopen_cache P m
    simp [hp, track, Caches.step, Event.libdl?, Event.lookup?, Event.through?, Caches.get]
    simp [caches, hc, hp]

theorem track_real_dlclose (h0 : Ptr) (m : Machine W) :
    (track (caches m.mem) (prims (real_dlclose P h0 m).trace)).isSome = true ∧
    (∀ r, (real_dlclose P h0 m).out = Outcome.ret r →
      track (caches m.mem) (prims (real_dlclose P h0 m).trace) =
        some (caches (real_dlclose P h0 m).st.mem)) := by
  rw [real_dlclose_prims, real_dlclose_out, real_dlclose_st, track_append, track_pre_dlclose]
  by_cases hp : pre_fp P slot_dlclose m = NULL
  · simp [hp, track]
  · have hc := pre_machine_dlclose_cache P m
    simp [hp, track, Caches.step, Event.libdl?, Event.lookup?, Event.through?, Caches.get]
    simp [caches, hc, hp]

theorem track_real_dlsym (h0 : Ptr) (s0 : Option String) (m : Machine W) :
    (track (caches m.mem) (prims (real_dlsym P h0 s0 m).trace)).isSome = true ∧
    (∀ r, (real_dlsym P h0 s0 m).out = Outcome.ret r →
      track (caches m.mem) (prims (real_dlsym P h0 s0 m).trace) =
        some (caches (real_dlsym P h0 s0 m).st.mem)) := by
  rw [real_dlsym_prims, real_dlsym_out, real_dlsym_st, track_append, track_pre_dlsym]
  by_cases hp : pre_fp P slot_dlsym m = NULL
  · simp [hp, track]
  · have hc := pre_machine_dlsym_cache P m
    simp [hp, track, Caches.step, Event.libdl?, Event.lookup?, Event.through?, Caches.get]
    simp [caches, hc, hp]

theorem track_ctype_events (m : Machine W) :
    track (caches m.mem) (ctype_events P m) =
      some { caches (ctype_machine P m).mem with ctype_init := some (ctype_fp P m) } := by
  unfold ctype_events ctype_machine ctype_fp
  by_cases h : m.mem.the_real__ctype_init = UNINITIALIZED
  · simp only [h, if_true]
    rw [track_append, track_libc_events]
    simp [track, Caches.step, Event.libdl?, Event.lookup?, caches, h, Caches.get, Caches.set]
  · simp [h, track, caches]

theorem ctype_machine_cache (m : Machine W) :
    (ctype_machine P m).mem.the_real__ctype_init = ctype_fp P m := by
  unfold ctype_machine ctype_fp
  split <;> rfl

theorem track_eden_ctypeInit (m : Machine W) (hU : ctype_fp P m ≠ UNINITIALIZED) :
    track (caches m.mem) (prims (eden_ctypeInit P m).trace) =
      some (caches (eden_ctypeInit P m).st.mem) := by
  rw [eden_ctypeInit_prims, eden_ctypeInit_st, track_append, track_ctype_events]
  have hc := ctype_machine_cache P m
  by_cases hp : ctype_fp P m = NULL
  · simp [hp, track]
    simp [caches, hc, hp]
  · simp [hp, track, Caches.step, Event.libdl?, Event.lookup?, Event.through?, Caches.get]
    simp [caches, hc, hU]

theorem track_dlopen (f : Option String) (fl : Int) (m : Machine W) :
    (track (caches m.mem) (prims (dlopen P f fl m).trace)).isSome = true ∧
    (∀ r, (dlopen P f fl m).out = Outcome.ret r →
      track (caches m.mem) (prims (dlopen P f fl m).trace) =
        some (caches (dlopen P f fl m).st.mem)) := by
  have hR := track_real_dlmopen P m.mem.namespace_id f (strip_global fl) (access_machine P f m)
  rw [access_machine_mem] at hR
  rw [dlopen_prims, dlopen_out, dlopen_st, track_append, track_access_events]
  by_cases hb : blocked P f m
  · simp [hb, track]
  · simp only [hb, if_false, Option.some_bind, track_append, dlerror_machine_mem]
    constructor
    · rcases Option.isSome_iff_exists.1 hR.1 with ⟨c1, hc1⟩
      rw [hc1]
      simp [track_dlerror_events]
    · intro r hr
      rw [hR.2 r hr]
      simp [track_dlerror_events]

theorem exec_track (c : Call) (m : Machine W)
    (hU : ∀ w h, (P.libc_dlsym w h "__ctype_init").1 ≠ UNINITIALIZED ∨
      m.mem.the_real__ctype_init ≠ UNINITIALIZED) :
    (track (caches m.mem) (prims (c.exec P m).trace)).isSome = true ∧
    ((c.exec P m).out = Outcome.ret () →
      track (caches m.mem) (prims (c.exec P m).trace) = some (caches (c.exec P m).st.mem)) := by
  cases c with
  | dlopen f fl =>
    have h := track_dlopen P f fl m
    refine ⟨h.1, fun hout => ?_⟩
    simp only [Call.exec, discard_out] at hout
    rcases hx : (dlopen P f fl m).out with r | x | _
    · exact h.2 r hx
    · rw [hx] at hout; simp at hout
    · rw [hx] at hout; simp at hout
  | dlmopen l f fl =>
    have h := track_real_dlmopen P l f fl m
    simp only [Call.exec, discard_out, discard_st, discard_trace, dlmopen_prims, dlmopen_st,
      dlmopen_out]
    refine ⟨h.1, fun hout => ?_⟩
    rcases hx : (real_dlmopen P l f fl m).out with r | x | _
    · exact h.2 r hx
    · rw [hx] at hout; simp at hout
    · rw [hx] at hout; simp at hout
  | dlclose h0 =>
    have h := track_real_dlclose P h0 m
    simp only [Call.exec, discard_out, discard_st, discard_trace, dlclose_prims, dlclose_st,
      dlclose_out]
    refine ⟨h.1, fun hout => ?_⟩
    rcases hx : (real_dlclose P h0 m).out with r | x | _
    · exact h.2 r hx
    · rw [hx] at hout; simp at hout
    · rw [hx] at hout; simp at hout
  | dlsym h0 s0 =>
    have h := track_real_dlsym P h0 s0 m
    simp only [Call.exec, discard_out, discard_st, discard_trace, dlsym_prims, dlsym_st,
      dlsym_out]
    refine ⟨h.1, fun hout => ?_⟩
    rcases hx : (real_dlsym P h0 s0 m).out with r | x | _
    · exact h.2 r hx
    · rw [hx] at hout; simp at hout
    · rw [hx] at hout; simp at hout
  | eden_ctypeInit =>
    have hfp : ctype_fp P m ≠ UNINITIALIZED := by
      unfold ctype_fp
      split
      · rename_i h0
        rcases hU (libc_world P m) (libc_of P m) with h | h
        · exact h
        · exact absurd h0 h
      · rename_i h0
        exact h0
    have h := track_eden_ctypeInit P m hfp
    simp only [Call.exec]
    exact ⟨by rw [h]; rfl, fun _ => h⟩
  | eden_RTLD_DEFAULT =>
    simp [Call.exec, eden_RTLD_DEFAULT_run, track]

theorem run_calls_track (cs : List Call) (m : Machine W)
    (hU : ∀ w h, (P.libc_dlsym w h "__ctype_init").1 ≠ UNINITIALIZED) :
    ∃ c1, track (caches m.mem) (prims (run_calls P cs m).trace) = some c1 := by
  induction cs generalizing m with
  | nil => exact ⟨caches m.mem, by simp [run_calls, track]⟩
  | cons c cs ih =>
    have he := exec_track P c m (fun w h => Or.inl (hU w h))
    simp only [run_calls, bind_run]
    rcases hx : (c.exec P m).out with u | x | _
    · obtain ⟨c1, hc1⟩ := ih (c.exec P m).st
      refine ⟨c1, ?_⟩
      simp only [prims_append, track_append, he.2 hx, Option.some_bind, hc1]
    · exact Option.isSome_iff_exists.1 he.1
    · exact Option.isSome_iff_exists.1 he.1

theorem steady_lookup (w : Fake) (h : Ptr) :
    (steadyPlatform.libc_dlsym w h "__ctype_init").1 ≠ UNINITIALIZED := by
  show (32773 : Nat) ≠ 2 ^ 64 - 1
  decide

end Run
end Eden

namespace Eden
section Claims
variable {W : Type} (P : Platform W)

/-- C1. For every absolute filename that `access(filename, R_OK)` rejects, and every flags
value, `dlopen(filename, flags)` returns `NULL` and makes no call through a resolved loader
pointer: the real `dlmopen` is invoked zero times.  The readability check is the only call
it makes to the platform. -/
theorem dlopen_unreadable_absolute (m : Machine W) (filename : Option String) (flags : Int)
    (habs : is_absolute_path filename = true)
    (hacc : (P.access m.world filename R_OK).1 ≠ 0) :
    (dlopen P filename flags m).out = Outcome.ret NULL ∧
    real_calls (dlopen P filename flags m).trace = [] ∧
    prims (dlopen P filename flags m).trace =
      [Event.access filename R_OK (P.access m.world filename R_OK).1] := by
  have hb : blocked P filename m := ⟨habs, hacc⟩
  refine ⟨?_, ?_, ?_⟩
  · rw [dlopen_out]; simp [hb]
  · rw [← real_calls_prims, dlopen_prims]; simp [hb]
  · rw [dlopen_prims]; simp [hb, access_events, habs]

theorem dlopen_unreadable_absolute_witness :
    is_absolute_path (some "/tmp/x.so") = true ∧
    (fakePlatform.access (loaded 0 false).world (some "/tmp/x.so") R_OK).1 ≠ 0 ∧
    (dlopen fakePlatform (some "/tmp/x.so") RTLD_NOW (loaded 0 false)).out = Outcome.ret NULL ∧
    real_calls (dlopen fakePlatform (some "/tmp/x.so") RTLD_NOW (loaded 0 false)).trace = [] :=
  ⟨by decide, by decide,
    (dlopen_unreadable_absolute fakePlatform (loaded 0 false) (some "/tmp/x.so") RTLD_NOW
      (by decide) (by decide)).1,
    (dlopen_unreadable_absolute fakePlatform (loaded 0 false) (some "/tmp/x.so") RTLD_NOW
      (by decide) (by decide)).2.1⟩

/-- C2. For every filename that is not an absolute path rejected by `access` (a relative or
bare name, a null filename, a readable absolute path) and every flags value, `dlopen` makes
exactly one call through a resolved pointer, the real `dlmopen`, with the stored
`namespace_id`, the filename and the flags with `RTLD_GLOBAL` cleared (bit 8 off, every
other bit as given), and returns the handle that call returns, null included.  This
presupposes that the real `dlmopen` exists: the pointer `real_dlmopen` holds or looks up is
not null. -/
theorem dlopen_forwards (m : Machine W) (filename : Option String) (flags : Int)
    (hok : ¬ (is_absolute_path filename = true ∧ (P.access m.world filename R_OK).1 ≠ 0))
    (hres : pre_fp P slot_dlmopen (access_machine P filename m) ≠ NULL) :
    (dlopen P filename flags m).out =
      Outcome.ret (P.call_dlmopen (pre_machine P slot_dlmopen (access_machine P filename m)).world
        (pre_fp P slot_dlmopen (access_machine P filename m))
        m.mem.namespace_id filename (strip_global flags)).1 ∧
    real_calls (dlopen P filename flags m).trace =
      [Event.call_dlmopen (pre_fp P slot_dlmopen (access_machine P filename m))
        m.mem.namespace_id filename (strip_global flags)
        (P.call_dlmopen (pre_machine P slot_dlmopen (access_machine P filename m)).world
          (pre_fp P slot_dlmopen (access_machine P filename m))
          m.mem.namespace_id filename (strip_global flags)).1] ∧
    ∀ i, (to_bits (strip_global flags)).testBit i =
      ((to_bits flags).testBit i && decide (i ≠ 8)) := by
  have hb : ¬ blocked P filename m := hok
  refine ⟨?_, ?_, fun i => strip_global_testBit flags i⟩
  · rw [dlopen_out]; simp [hb, hres]
  · rw [← real_calls_prims, dlopen_prims]; simp [hb, hres, Event.isRealCall]

theorem dlopen_forwards_witness :
    ¬ (is_absolute_path (some "/tmp/x.so") = true ∧
      (fakePlatform.access (loaded 0 true).world (some "/tmp/x.so") R_OK).1 ≠ 0) ∧
    pre_fp fakePlatform slot_dlmopen
      (access_machine fakePlatform (some "/tmp/x.so") (loaded 0 true)) ≠ NULL ∧
    (dlopen fakePlatform (some "/tmp/x.so") RTLD_NOW (loaded 0 true)).out
      = Outcome.ret 28672 ∧
    real_calls (dlopen fakePlatform (some "/tmp/x.so") RTLD_NOW (loaded 0 true)).trace
      = [Event.call_dlmopen 32770 42 (some "/tmp/x.so") RTLD_NOW 28672] :=
  ⟨by decide, by decide,
    (dlopen_forwards fakePlatform (loaded 0 true) (some "/tmp/x.so") RTLD_NOW
      (by decide) (by decide)).1,
    (dlopen_forwards fakePlatform (loaded 0 true) (some "/tmp/x.so") RTLD_NOW
      (by decide) (by decide)).2.1⟩

/-- C3. For every filename, every machine and platform, and every flags value `f` with the
`RTLD_GLOBAL` bit set, `dlopen(filename, f)` and `dlopen(filename, f & ~RTLD_GLOBAL)` end in
the same outcome and the same machine after the same sequence of calls to the platform, with
the same arguments and results; the flags that reach the real `dlmopen` are `f` with bit 8
cleared and every other bit unchanged. -/
theorem dlopen_ignores_global (m : Machine W) (filename : Option String) (f : Int)
    (hg : int_and f RTLD_GLOBAL ≠ 0) :
    (dlopen P filename f m).out = (dlopen P filename (int_and f (int_not RTLD_GLOBAL)) m).out ∧
    (dlopen P filename f m).st = (dlopen P filename (int_and f (int_not RTLD_GLOBAL)) m).st ∧
    prims (dlopen P filename f m).trace =
      prims (dlopen P filename (int_and f (int_not RTLD_GLOBAL)) m).trace ∧
    ∀ fp lmid fn fl r, Event.call_dlmopen fp lmid fn fl r ∈ (dlopen P filename f m).trace →
      fl = int_and f (int_not RTLD_GLOBAL) ∧
      ∀ i, (to_bits fl).testBit i = ((to_bits f).testBit i && decide (i ≠ 8)) := by
  have h1 := strip_global_of_set f hg
  have h2 := strip_global_cleared f
  refine ⟨?_, ?_, ?_, ?_⟩
  · rw [dlopen_out, dlopen_out, h1, h2]
  · rw [dlopen_st, dlopen_st, h1, h2]
  · rw [dlopen_prims, dlopen_prims, h1, h2]
  · intro fp lmid fn fl r hmem
    have hm := mem_real_calls _ _ hmem rfl
    rw [dlopen_prims] at hm
    have hfl : fl = strip_global f := by
      by_cases hb : blocked P filename m
      · simp [hb] at hm
      · by_cases hp : pre_fp P slot_dlmopen (access_machine P filename m) = NULL
        · simp [hb, hp] at hm
        · simp [hb, hp, Event.isRealCall] at hm
          exact hm.2.2.2.1
    refine ⟨hfl.trans h1, fun i => ?_⟩
    rw [hfl]
    exact strip_global_testBit f i

theorem dlopen_ignores_global_witness :
    int_and 258 RTLD_GLOBAL ≠ 0 ∧
    (dlopen fakePlatform (some "/tmp/x.so") 258 (loaded 1 true)).out =
      (dlopen fakePlatform (some "/tmp/x.so") (int_and 258 (int_not RTLD_GLOBAL))
        (loaded 1 true)).out ∧
    prims (dlopen fakePlatform (some "/tmp/x.so") 258 (loaded 1 true)).trace =
      prims (dlopen fakePlatform (some "/tmp/x.so") (int_and 258 (int_not RTLD_GLOBAL))
        (loaded 1 true)).trace :=
  ⟨by decide,
    (dlopen_ignores_global fakePlatform (loaded 1 true) (some "/tmp/x.so") 258 (by decide)).1,
    (dlopen_ignores_global fakePlatform (loaded 1 true) (some "/tmp/x.so") 258
      (by decide)).2.2.1⟩

/-- C4. The exported `dlmopen`, `dlclose` and `dlsym` are pass-throughs: each makes exactly
one call through a resolved pointer, to its own real primitive, with exactly the arguments
received (`dlmopen` passes on the namespace and the flags it was given), and returns what
that call returns.  This presupposes that each real primitive exists: the pointer held or
looked up is not null. -/
theorem passthroughs (m : Machine W) (lmid : Int) (filename : Option String) (flags : Int)
    (handle : Ptr) (symbol : Option String)
    (hm : pre_fp P slot_dlmopen m ≠ NULL) (hc : pre_fp P slot_dlclose m ≠ NULL)
    (hs : pre_fp P slot_dlsym m ≠ NULL) :
    ((dlmopen P lmid filename flags m).out =
        Outcome.ret (P.call_dlmopen (pre_machine P slot_dlmopen m).world
          (pre_fp P slot_dlmopen m) lmid filename flags).1 ∧
      real_calls (dlmopen P lmid filename flags m).trace =
        [Event.call_dlmopen (pre_fp P slot_dlmopen m) lmid filename flags
          (P.call_dlmopen (pre_machine P slot_dlmopen m).world
            (pre_fp P slot_dlmopen m) lmid filename flags).1]) ∧
    ((dlclose P handle m).out =
        Outcome.ret (P.call_dlclose (pre_machine P slot_dlclose m).world
          (pre_fp P slot_dlclose m) handle).1 ∧
      real_calls (dlclose P handle m).trace =
        [Event.call_dlclose (pre_fp P slot_dlclose m) handle
          (P.call_dlclose (pre_machine P slot_dlclose m).world
            (pre_fp P slot_dlclose m) handle).1]) ∧
    ((dlsym P handle symbol m).out =
        Outcome.ret (P.call_dlsym (pre_machine P slot_dlsym m).world
          (pre_fp P slot_dlsym m) handle symbol).1 ∧
      real_calls (dlsym P handle symbol m).trace =
        [Event.call_dlsym (pre_fp P slot_dlsym m) handle symbol
          (P.call_dlsym (pre_machine P slot_dlsym m).world
            (pre_fp P slot_dlsym m) handle symbol).1]) := by
  refine ⟨⟨?_, ?_⟩, ⟨?_, ?_⟩, ⟨?_, ?_⟩⟩
  · rw [dlmopen_out]; simp [hm]
  · rw [← real_calls_prims, dlmopen_prims]; simp [hm, Event.isRealCall]
  · rw [dlclose_out]; simp [hc]
  · rw [← real_calls_prims, dlclose_prims]; simp [hc, Event.isRealCall]
  · rw [dlsym_out]; simp [hs]
  · rw [← real_calls_prims, dlsym_prims]; simp [hs, Event.isRealCall]

theorem passthroughs_witness :
    pre_fp fakePlatform slot_dlmopen (loaded 0 true) ≠ NULL ∧
    pre_fp fakePlatform slot_dlclose (loaded 0 true) ≠ NULL ∧
    pre_fp fakePlatform slot_dlsym (loaded 0 true) ≠ NULL ∧
    real_calls (dlmopen fakePlatform 7 (some "/tmp/x.so") 258 (loaded 0 true)).trace
      = [Event.call_dlmopen 32770 7 (some "/tmp/x.so") 258 28672] ∧
    real_calls (dlclose fakePlatform 28672 (loaded 0 true)).trace
      = [Event.call_dlclose 32771 28672 0] ∧
    real_calls (dlsym fakePlatform 28672 (some "JNI_OnLoad") (loaded 0 true)).trace
      = [Event.call_dlsym 32772 28672 (some "JNI_OnLoad") NULL] :=
  ⟨by decide, by decide, by decide,
    (passthroughs fakePlatform (loaded 0 true) 7 (some "/tmp/x.so") 258 28672
      (some "JNI_OnLoad") (by decide) (by decide) (by decide)).1.2,
    (passthroughs fakePlatform (loaded 0 true) 7 (some "/tmp/x.so") 258 28672
      (some "JNI_OnLoad") (by decide) (by decide) (by decide)).2.1.2,
    (passthroughs fakePlatform (loaded 0 true) 7 (some "/tmp/x.so") 258 28672
      (some "JNI_OnLoad") (by decide) (by decide) (by decide)).2.2.2⟩

/-- C6. The test double at the failing input: a library that the real `dlmopen` cannot open.
With the debug flag clear `dlopen` returns `NULL` and the next `dlerror()` of the caller
returns the loader's message.  With the debug flag set `dlopen` returns `NULL` too, but its
own trace has already called `dlerror()`, and the next `dlerror()` of the caller returns
null: the message is lost. -/
theorem dlopen_debug_consumes_dlerror :
    (dlopen fakePlatform (some "libmissing.so") RTLD_NOW (loaded 0 false)).out
      = Outcome.ret NULL ∧
    (fakePlatform.dlerror
      (dlopen fakePlatform (some "libmissing.so") RTLD_NOW (loaded 0 false)).st.world).1
      = some "cannot open shared object file" ∧
    (dlopen fakePlatform (some "libmissing.so") RTLD_NOW (loaded 1 false)).out
      = Outcome.ret NULL ∧
    prims (dlopen fakePlatform (some "libmissing.so") RTLD_NOW (loaded 1 false)).trace
      = [Event.libc_dlopen_mode "libdl.so" RTLD_LAZY 8192,
         Event.libc_dlsym 8192 "dlmopen" 32770,
         Event.call_dlmopen 32770 42 (some "libmissing.so") RTLD_NOW NULL,
         Event.dlerror (some "cannot open shared object file")] ∧
    (fakePlatform.dlerror
      (dlopen fakePlatform (some "libmissing.so") RTLD_NOW (loaded 1 false)).st.world).1
      = none := by
  decide

/-- C7. After the constructor the debug flag is set exactly when `EDEN_DEBUG` is set to
exactly `true` or exactly `1`; it is clear when the variable is unset and for the values
`TRUE`, `True`, `yes`, `0`, the empty string and `1` followed by a blank. -/
theorem debug_flag_after_init (w : W) :
    ((eden_init P (boot w)).st.mem.eden_debug ≠ 0 ↔
      (P.getenv w "EDEN_DEBUG" = some "true" ∨ P.getenv w "EDEN_DEBUG" = some "1")) ∧
    (P.getenv w "EDEN_DEBUG" = none → (eden_init P (boot w)).st.mem.eden_debug = 0) ∧
    (∀ v ∈ ["TRUE", "True", "yes", "0", "", "1 "], P.getenv w "EDEN_DEBUG" = some v →
      (eden_init P (boot w)).st.mem.eden_debug = 0) := by
  rw [init_final_debug]
  refine ⟨init_debug_ne_zero _, fun h => by rw [h]; rfl, fun v hv h => ?_⟩
  rw [h]
  by_contra hne
  have := (init_debug_ne_zero (some v)).1 hne
  simp at hv
  rcases hv with hv | hv | hv | hv | hv | hv <;> subst hv <;> simp at this

theorem debug_flag_after_init_witness :
    fakePlatform.getenv (scenario (some "TRUE") true) "EDEN_DEBUG" = some "TRUE" ∧
    (eden_init fakePlatform (boot (scenario (some "TRUE") true))).st.mem.eden_debug = 0 :=
  ⟨rfl, (debug_flag_after_init fakePlatform (scenario (some "TRUE") true)).2.2 "TRUE"
    (by decide) rfl⟩

/-- C8. When the pointer `eden_ctypeInit` holds or looks up for `__ctype_init` is null, each
of `n` calls returns normally and none calls through a resolved pointer.  When it is a
function address (not null, not the all-ones sentinel), each of `n` calls returns normally
and the calls through resolved pointers are exactly `n` calls of that function. -/
theorem ctypeInit_calls (m : Machine W) (n : Nat) :
    (ctype_fp P m = NULL →
      (run_calls P (List.replicate n Call.eden_ctypeInit) m).out = Outcome.ret () ∧
      real_calls (run_calls P (List.replicate n Call.eden_ctypeInit) m).trace = []) ∧
    (ctype_fp P m ≠ NULL → ctype_fp P m ≠ UNINITIALIZED →
      (run_calls P (List.replicate n Call.eden_ctypeInit) m).out = Outcome.ret () ∧
      real_calls (run_calls P (List.replicate n Call.eden_ctypeInit) m).trace =
        List.replicate n (Event.call_ctype_init (ctype_fp P m))) := by
  constructor
  · intro h0
    have hU : ctype_fp P m ≠ UNINITIALIZED := by rw [h0]; decide
    have := run_ctypeInit P n m hU
    simpa [h0] using this
  · intro h0 hU
    have := run_ctypeInit P n m hU
    simpa [h0] using this

theorem ctypeInit_calls_witness :
    ctype_fp fakePlatform (loaded 0 true) ≠ NULL ∧
    ctype_fp fakePlatform (loaded 0 true) ≠ UNINITIALIZED ∧
    real_calls (run_calls fakePlatform (List.replicate 3 Call.eden_ctypeInit)
      (loaded 0 true)).trace = List.replicate 3 (Event.call_ctype_init 32773) :=
  ⟨by decide, by decide,
    ((ctypeInit_calls fakePlatform (loaded 0 true) 3).2 (by decide) (by decide)).2⟩

/-- C9. In every sequence of calls of the exported functions, from every machine, the trace
obeys the caching discipline of `track`: a raw lookup is made only while its pointer is not
cached, a call goes only through the pointer its lookup produced, the helper library is not
opened again once an open has returned a handle.  So each symbol is looked up at most once,
not at all when its pointer is cached at the start, every lookup result and every pointer
called through is the one cached at the end, and at most one open of the helper library
returns a handle.  For `__ctype_init` a null lookup result is cached like any other; the
platform is taken never to return the all-ones sentinel from that lookup. -/
theorem resolution_cached (cs : List Call) (m : Machine W)
    (hU : ∀ w h, (P.libc_dlsym w h "__ctype_init").1 ≠ UNINITIALIZED) :
    ∃ c1, track (caches m.mem) (run_calls P cs m).trace = some c1 ∧
      (∀ k, ((run_calls P cs m).trace.filter (Event.isLookup k)).length ≤ 1) ∧
      (∀ k, (caches m.mem).get k ≠ none →
        (run_calls P cs m).trace.filter (Event.isLookup k) = []) ∧
      (∀ e ∈ (run_calls P cs m).trace, ∀ k r, e.lookup? = some (k, r) → c1.get k = some r) ∧
      (∀ e ∈ (run_calls P cs m).trace, ∀ k fp, e.through? = some (k, fp) →
        c1.get k = some fp) ∧
      ((run_calls P cs m).trace.filter Event.isLibdlOpened).length ≤ 1 := by
  obtain ⟨c1, hc1⟩ := run_calls_track P cs m hU
  rw [track_prims] at hc1
  refine ⟨c1, hc1, fun k => ?_, fun k hk => ?_, fun e he k r hl => ?_, fun e he k fp hl => ?_, ?_⟩
  · refine le_trans (track_lookup_count _ _ _ hc1 k) ?_
    split <;> simp
  · have := track_lookup_count _ _ _ hc1 k
    simp only [hk, if_false, Nat.le_zero, List.length_eq_zero] at this
    exact this
  · exact track_lookup_result _ _ _ hc1 e he k r hl
  · exact track_through _ _ _ hc1 e he k fp hl
  · refine le_trans (track_libdl_count _ _ _ hc1) ?_
    split <;> simp

theorem resolution_cached_witness :
    (∀ w h, (steadyPlatform.libc_dlsym w h "__ctype_init").1 ≠ UNINITIALIZED) ∧
    ∃ c1, track (caches (loaded 0 true).mem)
        (run_calls steadyPlatform
          [Call.dlopen (some "/tmp/x.so") RTLD_NOW, Call.eden_ctypeInit,
            Call.dlopen (some "/tmp/x.so") RTLD_NOW, Call.eden_ctypeInit]
          (loaded 0 true)).trace = some c1 ∧
      ∀ k, ((run_calls steadyPlatform
          [Call.dlopen (some "/tmp/x.so") RTLD_NOW, Call.eden_ctypeInit,
            Call.dlopen (some "/tmp/x.so") RTLD_NOW, Call.eden_ctypeInit]
          (loaded 0 true)).trace.filter (Event.isLookup k)).length ≤ 1 :=
  ⟨steady_lookup,
    (resolution_cached steadyPlatform
      [Call.dlopen (some "/tmp/x.so") RTLD_NOW, Call.eden_ctypeInit,
        Call.dlopen (some "/tmp/x.so") RTLD_NOW, Call.eden_ctypeInit]
      (loaded 0 true) steady_lookup).imp fun _ h => ⟨h.1, h.2.1⟩⟩

/-- C10. When the constructor has returned normally, the stored namespace id is not zero and
is the value its one `dlinfo` call reported with status 0; no sequence of calls of the
exported functions changes it, and `dlmopen`, whatever namespace it is given, leaves it
unchanged in every machine. -/
theorem namespace_registry (w : W) (cs : List Call)
    (hinit : (eden_init P (boot w)).out = Outcome.ret ()) :
    (eden_init P (boot w)).st.mem.namespace_id ≠ 0 ∧
    (∃ h, dlinfo_calls (eden_init P (boot w)).trace =
      [Event.dlinfo h RTLD_DI_LMID 0 (eden_init P (boot w)).st.mem.namespace_id]) ∧
    (run_calls P cs (eden_init P (boot w)).st).st.mem.namespace_id =
      (eden_init P (boot w)).st.mem.namespace_id ∧
    ∀ (m : Machine W) (lmid : Int) (filename : Option String) (flags : Int),
      (dlmopen P lmid filename flags m).st.mem.namespace_id = m.mem.namespace_id :=
  ⟨(init_namespace_of_ret P w hinit).1, (init_namespace_of_ret P w hinit).2,
    run_calls_namespace P cs _, fun m l f fl => exec_namespace P (Call.dlmopen l f fl) m⟩

theorem namespace_registry_witness :
    (eden_init fakePlatform (boot (scenario none true))).out = Outcome.ret () ∧
    (eden_init fakePlatform (boot (scenario none true))).st.mem.namespace_id = 42 ∧
    (run_calls fakePlatform
      [Call.dlmopen 7 (some "/tmp/x.so") RTLD_NOW, Call.dlopen (some "/tmp/x.so") RTLD_NOW]
      (eden_init fakePlatform (boot (scenario none true))).st).st.mem.namespace_id = 42 :=
  ⟨by decide, by decide,
    (namespace_registry fakePlatform (scenario none true)
      [Call.dlmopen 7 (some "/tmp/x.so") RTLD_NOW, Call.dlopen (some "/tmp/x.so") RTLD_NOW]
      (by decide)).2.2.1.trans (by decide)⟩

end Claims
end Eden
